import Mathlib

/-! Verification of the CLIMADA cost-benefit engine
(`climada/engine/cost_benefit.py`): a shallow embedding of the data model and
of the computation (`calc`, `_calc_impact_measures`, `_calc_cost_benefit`,
`_cost_ben_one`, `_time_dependency_array`, `_npv_unaverted_impact`,
`combine_measures`, `_combine_imp_meas`), together with theorems about it.
Numpy float arithmetic is idealized as real arithmetic; the one division that
the code leaves unguarded (the cost/benefit ratio) is modelled with explicit
IEEE special values, and the raise inside the time-dependency construction
(Python `ZeroDivisionError` from the scalar `0 ** negative` over a one-year
span) is embedded explicitly.  Python dictionaries are embedded as
association lists with in-place update, Python exceptions as an `Except`
error monad. -/

open Classical

noncomputable section

namespace Climada

/-- Sentinel dictionary key used for the baseline evaluation without measures. -/
def no_measure : String := "no measure"

/-- Snapshot label for future evaluations (the `when` argument). -/
def future_label : String := "future"

/-- Snapshot label for present evaluations (the `when` argument). -/
def present_label : String := "present"

/-- Default present reference year (`DEF_PRESENT_YEAR`). -/
def DEF_PRESENT_YEAR : ℤ := 2016

/-- Default future reference year (`DEF_FUTURE_YEAR`). -/
def DEF_FUTURE_YEAR : ℤ := 2030

/-- Modelled from the spec: the per-event impact bundle produced by the external
impact-calculation collaborator (`climada.engine.impact.Impact` is not part of
the verified core).  Only the numeric fields read or written by the
cost-benefit engine are kept: per-event loss `at_event`, per-event
`frequency`, expected impact per exposure `eai_exp`, the aggregated
average annual impact `aai_agg`, the total exposed value and the unit label. -/
structure Impact where
  at_event : List ℝ
  frequency : List ℝ
  eai_exp : List ℝ
  aai_agg : ℝ
  tot_value : ℝ
  unit : String

/-- Modelled from the spec: the impact exceedance frequency curve, ordered
pairs (return period, impact), derived from an impact result by the external
collaborator and treated here as opaque output data. -/
structure ImpactFreqCurve where
  return_per : List ℝ
  impact : List ℝ

/-- One entry of the `imp_meas_future` / `imp_meas_present` dictionaries:
cost, scalar risk, annual expected risk transfer, frequency curve and the
optionally retained impact (present exactly when the evaluation ran with
`save_imp=True`, and always for a combined measure). -/
structure MeasEval where
  cost : ℝ
  risk : ℝ
  risk_transf : ℝ
  efc : ImpactFreqCurve
  impact : Option Impact

/-- Modelled from the spec: an IEEE-754-style value as produced by numpy float
arithmetic.  Used for the result of the unguarded cost/benefit division, which
yields an infinite or NaN value instead of raising when the denominator is
zero. -/
inductive FloatVal where
  | finite : ℝ → FloatVal
  | posInf : FloatVal
  | negInf : FloatVal
  | nan : FloatVal

/-- Modelled from the spec: numpy float division.  A nonzero denominator gives
the exact quotient; division of a positive (negative) number by zero gives
positive (negative) infinity; `0/0` gives NaN.  No exception is raised. -/
def fdiv (a b : ℝ) : FloatVal :=
  if b ≠ 0 then .finite (a / b)
  else if 0 < a then .posInf
  else if a < 0 then .negInf
  else .nan

/-- Lookup in a Python dict embedded as an association list. -/
def dlookup {α : Type} (k : String) : List (String × α) → Option α
  | [] => none
  | p :: ps => if p.1 = k then some p.2 else dlookup k ps

/-- Python dict assignment `d[k] = v`: replace the binding in place if the key
exists, otherwise append the new binding at the end (dict insertion order). -/
def dinsert {α : Type} (k : String) (v : α) : List (String × α) → List (String × α)
  | [] => [(k, v)]
  | p :: ps => if p.1 = k then (k, v) :: ps else p :: dinsert k v ps

/-- Elementwise vector sum (numpy `a + b`). -/
def vadd (a b : List ℝ) : List ℝ := List.zipWith (· + ·) a b

/-- Elementwise vector difference (numpy `a - b`). -/
def vsub (a b : List ℝ) : List ℝ := List.zipWith (· - ·) a b

/-- Elementwise vector product (numpy `a * b`). -/
def vmul (a b : List ℝ) : List ℝ := List.zipWith (· * ·) a b

/-- Elementwise clipping at zero (numpy `np.maximum (a, 0)`). -/
def vmax0 (a : List ℝ) : List ℝ := a.map (fun x => max x 0)

/-- The `CostBenefit` result state: reference years, unit, total climate risk,
and the five dictionaries keyed by measure name. -/
structure CostBenefit where
  present_year : ℤ
  future_year : ℤ
  tot_climate_risk : ℝ
  unit : String
  color_rgb : List (String × List ℝ)
  benefit : List (String × ℝ)
  cost_ben_ratio : List (String × FloatVal)
  imp_meas_future : List (String × MeasEval)
  imp_meas_present : List (String × MeasEval)

/-- `CostBenefit.__init__`: empty dictionaries and default years. -/
def CostBenefit.init : CostBenefit :=
  { present_year := DEF_PRESENT_YEAR
    future_year := DEF_FUTURE_YEAR
    tot_climate_risk := 0
    unit := "USD"
    color_rgb := []
    benefit := []
    cost_ben_ratio := []
    imp_meas_future := []
    imp_meas_present := [] }

/-- Hazard tag carrying the hazard type used to filter the measure set. -/
structure HazardTag where
  haz_type : String

/-- Modelled from the spec: a hazard input, consumed opaquely by the external
impact calculation; only the tag is read by the cost-benefit engine itself. -/
structure Hazard where
  tag : HazardTag
  intensity : List ℝ

/-- Exposures: the fields read by the cost-benefit engine. -/
structure Exposures where
  ref_year : ℤ
  value_unit : String
  value : List ℝ

/-- Modelled from the spec: opaque impact-function-set collaborator data
(`climada.entity.ImpactFuncSet` is not part of the verified core). -/
structure ImpactFuncSet where
  ids : List ℕ

/-- Modelled from the spec: a candidate adaptation measure.  `calc_impact` is
the external intervention-impact computation
`measure.calc_impact(exposures, imp_fun_set, hazard)` returning the
post-intervention impact together with the risk-transfer scalar. -/
structure Measure where
  name : String
  cost : ℝ
  color_rgb : List ℝ
  calc_impact : Exposures → ImpactFuncSet → Hazard → Impact × ℝ

/-- Modelled from the spec: the measure-set collaborator,
`get_measure(haz_type)` returning the measures for one hazard type. -/
structure MeasureSet where
  get_measure : String → List Measure

/-- Modelled from the spec: the Discount-Rates collaborator
(`climada.entity.DiscRates` is not part of the verified core);
`net_present_value start_year end_year value_sequence` returns the discounted
sum of the sequence over the year range. -/
structure DiscRates where
  net_present_value : ℤ → ℤ → List ℝ → ℝ

/-- An entity bundling exposures, measures, impact functions, discount rates. -/
structure Entity where
  exposures : Exposures
  measures : MeasureSet
  impact_funcs : ImpactFuncSet
  disc_rates : DiscRates

/-- Modelled from the spec: the external impact-calculation engine.
`impact_calc` is `Impact.calc(exposures, imp_fun_set, hazard)`;
`calc_freq_curve` derives the exceedance frequency curve from the per-event
loss/frequency pairs of an impact. -/
structure ImpactEngine where
  impact_calc : Exposures → ImpactFuncSet → Hazard → Impact
  calc_freq_curve : List ℝ → List ℝ → ImpactFreqCurve

/-- `risk_aai_agg`: risk metric reading the aggregated average annual impact. -/
def risk_aai_agg (impact : Impact) : ℝ := impact.aai_agg

/-- Python exception kinds raised by the embedded code paths. -/
inductive CBErr where
  | valueError : CBErr
  | keyError : CBErr
  | indexError : CBErr
  | zeroDivisionError : CBErr

/-- `CostBenefit._time_dependency_array`.  Mirrors Python truthiness: the
growth-curve branch is taken when `imp_time_depen` is neither `None` nor `0`.
The growth branch evaluates `np.arange(n_years)**e / (n_years-1)**e`: with a
negative (float) exponent and `n_years = 1` the scalar denominator is
`0 ** e`, which raises `ZeroDivisionError` in Python (the numpy numerator
`0.0 ** e` only warns and yields infinity), and that raise is embedded here.
The exponent is a real number modelling the parameter's documented `float`
type; a Python-`int`-typed negative exponent would additionally raise numpy's
negative-integer-power `ValueError` at any span, a type tag a real number
cannot carry.  On the non-raising branch powers are idealized as real powers:
with `n_years = 1` and a positive exponent the weight is the silent division
`0^e / 0^e` (NaN with a warning in numpy, the real value `0` here), and with a
negative exponent and `n_years ≥ 2` the first numpy weight is infinite (real
`0` here) — regions in which only the raising behavior, never the numeric
value, is stated by a theorem below. -/
def time_dependency_array (self : CostBenefit) (imp_time_depen : Option ℝ) :
    Except CBErr (List ℝ) :=
  let n_years : ℤ := self.future_year - self.present_year + 1
  if imp_time_depen.getD 0 ≠ 0 then
    if imp_time_depen.getD 0 < 0 ∧ n_years = 1 then .error .zeroDivisionError
    else
      .ok ((List.range n_years.toNat).map
        (fun i : ℕ =>
          (i : ℝ) ^ imp_time_depen.getD 0 / ((n_years : ℝ) - 1) ^ imp_time_depen.getD 0))
  else .ok (List.replicate n_years.toNat 1)

/-- `CostBenefit._cost_ben_one`: benefit and cost/benefit ratio of one measure,
interpolating between present and future when a present snapshot exists,
discounting both the benefit and the risk-transfer sequences, and storing the
unguarded ratio `(cost + risk_tr) / benefit`. -/
def cost_ben_one (self : CostBenefit) (meas_name : String) (meas_val : MeasEval)
    (disc_rates : DiscRates) (time_dep : List ℝ) : Except CBErr CostBenefit :=
  match dlookup no_measure self.imp_meas_future with
  | none => .error .keyError
  | some fut_base =>
    let fut_benefit := fut_base.risk - meas_val.risk
    let fut_risk_tr := meas_val.risk_transf
    let seqs : Except CBErr (List ℝ × List ℝ) :=
      if self.imp_meas_present.isEmpty then
        .ok (time_dep.map (fun t => t * fut_benefit),
             time_dep.map (fun t => t * fut_risk_tr))
      else
        match dlookup no_measure self.imp_meas_present,
              dlookup meas_name self.imp_meas_present with
        | some pres_base, some pres_meas =>
          let pres_benefit := pres_base.risk - pres_meas.risk
          let pres_risk_tr := pres_meas.risk_transf
          .ok (time_dep.map (fun t => pres_benefit + (fut_benefit - pres_benefit) * t),
               time_dep.map (fun t => pres_risk_tr + (fut_risk_tr - pres_risk_tr) * t))
        | _, _ => .error .keyError
    match seqs with
    | .error e => .error e
    | .ok seqpair =>
      let meas_ben := disc_rates.net_present_value self.present_year self.future_year seqpair.1
      let risk_tr := disc_rates.net_present_value self.present_year self.future_year seqpair.2
      .ok { self with
        benefit := dinsert meas_name meas_ben self.benefit
        cost_ben_ratio :=
          dinsert meas_name (fdiv (meas_val.cost + risk_tr) meas_ben) self.cost_ben_ratio }

/-- `CostBenefit._npv_unaverted_impact`.  Mirrors Python truthiness of the
`risk_present` argument: both `None` and `0.0` select the
future-risk-only branch (the two branches coincide at `0`). -/
def npv_unaverted_impact (self : CostBenefit) (risk_future : ℝ) (disc_rates : DiscRates)
    (time_dep : List ℝ) (risk_present : Option ℝ) : ℝ :=
  if risk_present.getD 0 ≠ 0 then
    disc_rates.net_present_value self.present_year self.future_year
      (time_dep.map (fun t => risk_present.getD 0 + (risk_future - risk_present.getD 0) * t))
  else
    disc_rates.net_present_value self.present_year self.future_year
      (time_dep.map (fun t => t * risk_future))

/-- Body of the loop of `CostBenefit._calc_cost_benefit`: the `no measure`
entry sets the total climate risk (passing the present baseline risk exactly
when a present snapshot dictionary is populated); every other entry goes
through `cost_ben_one`. -/
def cost_ben_step (disc_rates : DiscRates) (time_dep : List ℝ)
    (acc : CostBenefit) (entry : String × MeasEval) : Except CBErr CostBenefit :=
  if entry.1 = no_measure then
    match dlookup no_measure acc.imp_meas_future with
    | none => .error .keyError
    | some fut_base =>
      if acc.imp_meas_present.isEmpty then
        .ok { acc with tot_climate_risk :=
          npv_unaverted_impact acc fut_base.risk disc_rates time_dep none }
      else
        match dlookup no_measure acc.imp_meas_present with
        | none => .error .keyError
        | some pres_base =>
          .ok { acc with tot_climate_risk :=
            npv_unaverted_impact acc fut_base.risk disc_rates time_dep (some pres_base.risk) }
  else
    cost_ben_one acc entry.1 entry.2 disc_rates time_dep

/-- `CostBenefit._calc_cost_benefit`: the two fatal guards (invalid year range,
future evaluation dictionary not populated) are checked before anything else;
then the time-dependency array is built once — whose own raise
(`ZeroDivisionError` for a negative exponent over a one-year span) therefore
propagates before the loop — and the future dictionary is folded over.  In
Python every one of these raises happens before any entry of `benefit`,
`cost_ben_ratio` or `tot_climate_risk` has been written. -/
def calc_cost_benefit (self : CostBenefit) (disc_rates : DiscRates)
    (imp_time_depen : Option ℝ) : Except CBErr CostBenefit :=
  if self.future_year - self.present_year + 1 ≤ 0 then .error .valueError
  else if self.imp_meas_future.isEmpty then .error .valueError
  else
    match time_dependency_array self imp_time_depen with
    | .error e => .error e
    | .ok time_dep => self.imp_meas_future.foldlM (cost_ben_step disc_rates time_dep) self

/-- `CostBenefit._calc_impact_measures`: builds a fresh evaluation dictionary
with the `no measure` baseline first, then one entry per measure of the
hazard's type, and assigns it to the snapshot selected by `when`. -/
def calc_impact_measures (self : CostBenefit) (eng : ImpactEngine) (hazard : Hazard)
    (exposures : Exposures) (meas_set : MeasureSet) (imp_fun_set : ImpactFuncSet)
    (when : String) (risk_func : Impact → ℝ) (save_imp : Bool) : CostBenefit :=
  let imp_tmp := eng.impact_calc exposures imp_fun_set hazard
  let base : MeasEval :=
    { cost := 0
      risk := risk_func imp_tmp
      risk_transf := 0
      efc := eng.calc_freq_curve imp_tmp.at_event imp_tmp.frequency
      impact := if save_imp then some imp_tmp else none }
  let impact_meas :=
    (meas_set.get_measure hazard.tag.haz_type).foldl
      (fun d measure =>
        let res := measure.calc_impact exposures imp_fun_set hazard
        dinsert measure.name
          { cost := measure.cost
            risk := risk_func res.1
            risk_transf := res.2
            efc := eng.calc_freq_curve res.1.at_event res.1.frequency
            impact := if save_imp then some res.1 else none } d)
      (dinsert no_measure base [])
  if when = future_label then { self with imp_meas_future := impact_meas }
  else { self with imp_meas_present := impact_meas }

/-- `CostBenefit.calc` (named `calc'` because `calc` is a Lean keyword):
resolves present and future years, saves measure colors, dispatches the
present/future snapshot evaluations on which future inputs were given,
defaults the time-dependency exponent to `1` when a future hazard or entity is
given and the exponent is unset, and runs the cost-benefit computation.  The
trailing `_print_results` call is reporting only and outside the core. -/
def calc' (self : CostBenefit) (eng : ImpactEngine) (hazard : Hazard) (entity : Entity)
    (haz_future : Option Hazard) (ent_future : Option Entity) (future_year : Option ℤ)
    (risk_func : Impact → ℝ) (imp_time_depen : Option ℝ) (save_imp : Bool) :
    Except CBErr CostBenefit :=
  let s0 := { self with present_year := entity.exposures.ref_year
                        unit := entity.exposures.value_unit }
  let colors := (entity.measures.get_measure hazard.tag.haz_type).foldl
    (fun d meas => dinsert meas.name meas.color_rgb d) s0.color_rgb
  let s1 := { s0 with color_rgb := colors }
  let fy := future_year.getD (entity.exposures.ref_year + 1)
  match haz_future, ent_future with
  | none, none =>
    let s2 := { s1 with future_year := fy }
    let s3 := calc_impact_measures s2 eng hazard entity.exposures entity.measures
      entity.impact_funcs future_label risk_func save_imp
    calc_cost_benefit s3 entity.disc_rates imp_time_depen
  | some hf, some ef =>
    let itd := some (imp_time_depen.getD 1)
    let s2 := calc_impact_measures s1 eng hazard entity.exposures entity.measures
      entity.impact_funcs present_label risk_func save_imp
    let s3 := { s2 with future_year := ef.exposures.ref_year }
    let s4 := calc_impact_measures s3 eng hf ef.exposures ef.measures
      ef.impact_funcs future_label risk_func save_imp
    calc_cost_benefit s4 entity.disc_rates itd
  | some hf, none =>
    let itd := some (imp_time_depen.getD 1)
    let s2 := calc_impact_measures s1 eng hazard entity.exposures entity.measures
      entity.impact_funcs present_label risk_func save_imp
    let s3 := { s2 with future_year := fy }
    let s4 := calc_impact_measures s3 eng hf entity.exposures entity.measures
      entity.impact_funcs future_label risk_func save_imp
    calc_cost_benefit s4 entity.disc_rates itd
  | none, some ef =>
    let itd := some (imp_time_depen.getD 1)
    let s2 := calc_impact_measures s1 eng hazard entity.exposures entity.measures
      entity.impact_funcs present_label risk_func save_imp
    let s3 := { s2 with future_year := ef.exposures.ref_year }
    let s4 := calc_impact_measures s3 eng hazard ef.exposures ef.measures
      ef.impact_funcs future_label risk_func save_imp
    calc_cost_benefit s4 entity.disc_rates itd

/-- `CostBenefit._combine_imp_meas` acting on one of the two evaluation
dictionaries: per-event averted damages of the named measures are summed
(independence assumption), the combined loss is floored at zero, an optional
risk-transfer layer `(attachment, cover)` is carved out, and the new entry is
inserted with summed costs, recomputed risk and frequency curve, and the
combined impact (a value copy of the first named measure's impact with the
per-event loss replaced). -/
def combine_imp_meas (imp_dict : List (String × MeasEval)) (eng : ImpactEngine)
    (in_meas_names : List String) (new_name : String) (risk_transf : ℝ × ℝ)
    (risk_func : Impact → ℝ) : Except CBErr (List (String × MeasEval)) :=
  match dlookup no_measure imp_dict with
  | none => .error .keyError
  | some base =>
  match base.impact with
  | none => .error .keyError
  | some base_imp =>
  match in_meas_names.mapM (fun name => dlookup name imp_dict) with
  | none => .error .keyError
  | some in_meas =>
  match in_meas.mapM (fun m => m.impact) with
  | none => .error .keyError
  | some in_imps =>
  let sum_ben := (in_imps.map (fun imp => vsub base_imp.at_event imp.at_event)).foldr vadd
    (List.replicate base_imp.at_event.length 0)
  match in_imps with
  | [] => .error .indexError
  | first_imp :: _ =>
  let at0 := vmax0 (vsub base_imp.at_event sum_ben)
  let layered :=
    if risk_transf ≠ ((0 : ℝ), (0 : ℝ)) then
      let imp_layer := at0.map (fun x => min (max (x - risk_transf.1) 0) risk_transf.2)
      ((vmul imp_layer first_imp.frequency).sum, vmax0 (vsub at0 imp_layer))
    else ((0 : ℝ), at0)
  let new_imp : Impact :=
    { first_imp with
      at_event := layered.2
      eai_exp := []
      aai_agg := (vmul layered.2 first_imp.frequency).sum }
  .ok (dinsert new_name
    { cost := (in_meas.map MeasEval.cost).sum
      risk := risk_func new_imp
      risk_transf := layered.1
      efc := eng.calc_freq_curve new_imp.at_event new_imp.frequency
      impact := some new_imp } imp_dict)

/-- `CostBenefit.combine_measures`: registers the new color, combines the named
measures in the future dictionary, does the same in the present dictionary
when it is populated (defaulting the time-dependency exponent to `1` when
unset), and runs the per-measure benefit/ratio computation on the new entry. -/
def combine_measures (self : CostBenefit) (eng : ImpactEngine) (in_meas_names : List String)
    (new_name : String) (new_color : List ℝ) (disc_rates : DiscRates)
    (risk_transf : ℝ × ℝ) (imp_time_depen : Option ℝ) (risk_func : Impact → ℝ) :
    Except CBErr CostBenefit :=
  let s0 := { self with color_rgb := dinsert new_name new_color self.color_rgb }
  match combine_imp_meas s0.imp_meas_future eng in_meas_names new_name risk_transf risk_func with
  | .error e => .error e
  | .ok fut' =>
  let s1 := { s0 with imp_meas_future := fut' }
  let step2 : Except CBErr (CostBenefit × Option ℝ) :=
    if s1.imp_meas_present.isEmpty then .ok (s1, imp_time_depen)
    else
      match combine_imp_meas s1.imp_meas_present eng in_meas_names new_name risk_transf
          risk_func with
      | .error e => .error e
      | .ok pres' => .ok ({ s1 with imp_meas_present := pres' }, some (imp_time_depen.getD 1))
  match step2 with
  | .error e => .error e
  | .ok s2itd =>
  match time_dependency_array s2itd.1 s2itd.2 with
  | .error e => .error e
  | .ok time_dep =>
  match dlookup new_name s2itd.1.imp_meas_future with
  | none => .error .keyError
  | some mv => cost_ben_one s2itd.1 new_name mv disc_rates time_dep

/-! Concrete fixtures used by the closed witness theorems. -/

/-- Fixture: an empty frequency curve. -/
def efc0 : ImpactFreqCurve :=
  { return_per := [], impact := [] }

/-- Fixture: an impact with the given per-event losses and frequencies. -/
def mkImp (ae fr : List ℝ) (aai : ℝ) : Impact :=
  { at_event := ae, frequency := fr, eai_exp := [], aai_agg := aai,
    tot_value := 1000, unit := "USD" }

/-- Fixture: a measure-evaluation entry with the given cost, risk, risk
transfer and optional retained impact. -/
def mkEval (c r rt : ℝ) (imp : Option Impact) : MeasEval :=
  { cost := c, risk := r, risk_transf := rt, efc := efc0, impact := imp }

/-- Fixture: discount rates with zero discounting, so that the net present
value of a sequence is its plain sum. -/
def discSum : DiscRates :=
  { net_present_value := fun _ _ l => l.sum }

/-- Fixture: an impact engine whose baseline impact reads the exposure values
with unit frequencies and whose frequency curve echoes its two inputs. -/
def engFix : ImpactEngine :=
  { impact_calc := fun e _ _ => mkImp e.value (e.value.map (fun _ => 1)) e.value.sum
    calc_freq_curve := fun ae fr => { return_per := fr, impact := ae } }

/-- Fixture: a state with a two-entry future snapshot and no present snapshot. -/
def cbC1 : CostBenefit :=
  { CostBenefit.init with
    present_year := 2020
    future_year := 2021
    imp_meas_future := [(no_measure, mkEval 0 200 0 none), ("m", mkEval 50 150 0 none)] }

/-- Fixture: a state whose year range is invalid (future before present). -/
def cbC8bad : CostBenefit :=
  { CostBenefit.init with
    present_year := 2030
    future_year := 2020
    imp_meas_future := [(no_measure, mkEval 0 200 0 none)] }

/-- Fixture: a degenerate state with equal present and future years. -/
def cbC7 : CostBenefit :=
  { CostBenefit.init with
    present_year := 2020
    future_year := 2020
    imp_meas_future := [(no_measure, mkEval 0 200 0 none)] }

/-- Fixture: a tropical-cyclone hazard. -/
def hazFix : Hazard :=
  { tag := { haz_type := "TC" }, intensity := [1] }

/-- Fixture: a measure that halves every per-event loss. -/
def measFix : Measure :=
  { name := "m"
    cost := 50
    color_rgb := [1, 0, 0]
    calc_impact := fun e _ _ =>
      (mkImp (e.value.map (fun v => v / 2)) (e.value.map (fun _ => 1))
        (e.value.map (fun v => v / 2)).sum, 0) }

/-- Fixture: a present-day entity with reference year 2020. -/
def entFix : Entity :=
  { exposures := { ref_year := 2020, value_unit := "USD", value := [10] }
    measures := { get_measure := fun _ => [measFix] }
    impact_funcs := { ids := [1] }
    disc_rates := discSum }

/-- Fixture: a baseline impact with per-event losses `[10, 6]`. -/
def impB : Impact := mkImp [10, 6] [1, 1] 16

/-- Fixture: measure `a` impact, per-event losses `[7, 5]` (averts `[3, 1]`). -/
def impA : Impact := mkImp [7, 5] [1, 1] 12

/-- Fixture: measure `b` impact, per-event losses `[8, 3]` (averts `[2, 3]`). -/
def impBm : Impact := mkImp [8, 3] [1, 1] 11

/-- Fixture: measure `c` impact, per-event losses `[9, 5]` (averts `[1, 1]`). -/
def impCm : Impact := mkImp [9, 5] [1, 1] 14

/-- Fixture: an evaluation dictionary with retained impacts for the baseline
and three measures. -/
def cbDictC2 : List (String × MeasEval) :=
  [(no_measure, mkEval 0 16 0 (some impB)),
   ("a", mkEval 10 12 0 (some impA)),
   ("b", mkEval 20 11 0 (some impBm)),
   ("c", mkEval 5 14 0 (some impCm))]

/-- Fixture: a full state whose future mapping is the retained-impact
dictionary, with pre-existing benefit, ratio and color entries for measure
`a`. -/
def cbC10 : CostBenefit :=
  { CostBenefit.init with
    present_year := 2020
    future_year := 2021
    color_rgb := [("a", [0, 0, 1])]
    benefit := [("a", 7)]
    cost_ben_ratio := [("a", FloatVal.finite 2)]
    imp_meas_future := cbDictC2 }

/-! Named forms of the intermediate vectors of `_combine_imp_meas`, used to
state its characterization lemmas. -/

/-- The summed per-event averted damage of `_combine_imp_meas` (the `sum_ben`
accumulator): the baseline per-event loss minus each named measure's per-event
loss, summed over the named measures. -/
def sum_ben_vec (base_imp : Impact) (in_imps : List Impact) : List ℝ :=
  (in_imps.map (fun imp => vsub base_imp.at_event imp.at_event)).foldr vadd
    (List.replicate base_imp.at_event.length 0)

/-- The combined per-event loss before the risk-transfer layer:
`max(baseline - summed averted damage, 0)`. -/
def combined_at0 (base_imp : Impact) (in_imps : List Impact) : List ℝ :=
  vmax0 (vsub base_imp.at_event (sum_ben_vec base_imp in_imps))

/-- The transferred loss per event of a risk-transfer layer
`(attachment, cover)`: `min(max(loss - attachment, 0), cover)`. -/
def layer_vec (att cov : ℝ) (v : List ℝ) : List ℝ :=
  v.map (fun x => min (max (x - att) 0) cov)

/-! Helper lemmas about the dictionary and vector embeddings. -/

theorem dlookup_dinsert_self {α : Type} (k : String) (v : α) (d : List (String × α)) :
    dlookup k (dinsert k v d) = some v := by
  induction d with
  | nil => simp [dinsert, dlookup]
  | cons p ps ih =>
    by_cases h : p.1 = k
    · simp [dinsert, dlookup, h]
    · simp [dinsert, dlookup, h, ih]

theorem dlookup_dinsert_ne {α : Type} {k k' : String} (hne : k' ≠ k) (v : α)
    (d : List (String × α)) : dlookup k' (dinsert k v d) = dlookup k' d := by
  have hk : ¬k = k' := fun hh => hne hh.symm
  induction d with
  | nil => simp [dinsert, dlookup, hk]
  | cons p ps ih =>
    by_cases h : p.1 = k
    · rw [show dinsert k v (p :: ps) = (k, v) :: ps by simp [dinsert, h]]
      simp [dlookup, hk, h]
    · rw [show dinsert k v (p :: ps) = p :: dinsert k v ps by simp [dinsert, h]]
      by_cases h' : p.1 = k'
      · simp [dlookup, h']
      · simp [dlookup, h', ih]

theorem vmax0_getD (a : List ℝ) (i : ℕ) : (vmax0 a).getD i 0 = max (a.getD i 0) 0 := by
  induction a generalizing i with
  | nil => simp [vmax0]
  | cons x xs ih =>
    cases i with
    | zero => simp [vmax0]
    | succ n => simpa [vmax0] using ih n

theorem vadd_getD {a b : List ℝ} (h : a.length = b.length) (i : ℕ) :
    (vadd a b).getD i 0 = a.getD i 0 + b.getD i 0 := by
  induction a generalizing b i with
  | nil =>
    cases b with
    | nil => simp [vadd]
    | cons y ys => simp at h
  | cons x xs ih =>
    cases b with
    | nil => simp at h
    | cons y ys =>
      cases i with
      | zero => simp [vadd]
      | succ n => simpa [vadd] using ih (by simpa using h) n

theorem vsub_getD {a b : List ℝ} (h : a.length = b.length) (i : ℕ) :
    (vsub a b).getD i 0 = a.getD i 0 - b.getD i 0 := by
  induction a generalizing b i with
  | nil =>
    cases b with
    | nil => simp [vsub]
    | cons y ys => simp at h
  | cons x xs ih =>
    cases b with
    | nil => simp at h
    | cons y ys =>
      cases i with
      | zero => simp [vsub]
      | succ n => simpa [vsub] using ih (by simpa using h) n

theorem vmul_getD {a b : List ℝ} (h : a.length = b.length) (i : ℕ) :
    (vmul a b).getD i 0 = a.getD i 0 * b.getD i 0 := by
  induction a generalizing b i with
  | nil =>
    cases b with
    | nil => simp [vmul]
    | cons y ys => simp at h
  | cons x xs ih =>
    cases b with
    | nil => simp at h
    | cons y ys =>
      cases i with
      | zero => simp [vmul]
      | succ n => simpa [vmul] using ih (by simpa using h) n

theorem vadd_length {a b : List ℝ} (h : a.length = b.length) :
    (vadd a b).length = a.length := by
  simp [vadd, h]

theorem vsub_length {a b : List ℝ} (h : a.length = b.length) :
    (vsub a b).length = a.length := by
  simp [vsub, h]

theorem vmax0_length (a : List ℝ) : (vmax0 a).length = a.length := by
  simp [vmax0]

theorem replicate_getD (L i : ℕ) : (List.replicate L (0 : ℝ)).getD i 0 = 0 := by
  induction L generalizing i with
  | zero => simp
  | succ n ih =>
    cases i with
    | zero => simp [List.replicate]
    | succ m => exact ih m

theorem list_ext_getD {a b : List ℝ} (hl : a.length = b.length)
    (h : ∀ i, a.getD i 0 = b.getD i 0) : a = b := by
  induction a generalizing b with
  | nil =>
    cases b with
    | nil => rfl
    | cons y ys => simp at hl
  | cons x xs ih =>
    cases b with
    | nil => simp at hl
    | cons y ys =>
      have h0 : x = y := by simpa using h 0
      have ht : xs = ys := ih (by simpa using hl) (fun i => by simpa using h (i + 1))
      rw [h0, ht]

theorem foldr_vadd_length {ls : List (List ℝ)} {L : ℕ} (h : ∀ v ∈ ls, v.length = L) :
    (ls.foldr vadd (List.replicate L 0)).length = L := by
  induction ls with
  | nil => simp
  | cons v vs ih =>
    have hv : v.length = L := h v (by simp)
    have hrest := ih (fun w hw => h w (by simp [hw]))
    simp [vadd, hv, hrest]

theorem foldr_vadd_getD {ls : List (List ℝ)} {L : ℕ} (h : ∀ v ∈ ls, v.length = L) (i : ℕ) :
    (ls.foldr vadd (List.replicate L 0)).getD i 0 = (ls.map (fun v => v.getD i 0)).sum := by
  induction ls with
  | nil => simp only [List.foldr_nil, List.map_nil, List.sum_nil]; exact replicate_getD L i
  | cons v vs ih =>
    have hv : v.length = L := h v (by simp)
    have hrest := ih (fun w hw => h w (by simp [hw]))
    have hlen : v.length = (vs.foldr vadd (List.replicate L 0)).length := by
      rw [hv, foldr_vadd_length (fun w hw => h w (by simp [hw]))]
    have h1 : (v :: vs).foldr vadd (List.replicate L 0)
        = vadd v (vs.foldr vadd (List.replicate L 0)) := rfl
    rw [h1, vadd_getD hlen i, hrest, List.map_cons, List.sum_cons]

theorem vmul_sum_range {a b : List ℝ} (h : a.length = b.length) :
    (vmul a b).sum = ((List.range a.length).map (fun i => a.getD i 0 * b.getD i 0)).sum := by
  induction a generalizing b with
  | nil => simp [vmul]
  | cons x xs ih =>
    cases b with
    | nil => simp at h
    | cons y ys =>
      have hx := ih (b := ys) (by simpa using h)
      have hm : List.map (fun i => (x :: xs).getD i 0 * (y :: ys).getD i 0)
            (List.range (xs.length + 1))
          = (x * y) :: List.map (fun i => xs.getD i 0 * ys.getD i 0) (List.range xs.length) := by
        rw [List.range_succ_eq_map, List.map_cons, List.map_map]
        simp [Function.comp, List.getD_cons_zero, List.getD_cons_succ]
      calc (vmul (x :: xs) (y :: ys)).sum = x * y + (vmul xs ys).sum := by simp [vmul]
        _ = x * y
            + ((List.range xs.length).map (fun i => xs.getD i 0 * ys.getD i 0)).sum := by
              rw [hx]
        _ = _ := by rw [List.length_cons, hm, List.sum_cons]

/-! Characterization lemmas for `_time_dependency_array`: the null branch,
the growth branch, the `ZeroDivisionError` raise and when each is taken. -/

theorem time_dependency_array_null (self : CostBenefit) {imp_time_depen : Option ℝ}
    (h : imp_time_depen.getD 0 = 0) :
    time_dependency_array self imp_time_depen =
      .ok (List.replicate (self.future_year - self.present_year + 1).toNat 1) := by
  simp [time_dependency_array, h]

theorem time_dependency_array_none (self : CostBenefit) :
    time_dependency_array self none =
      .ok (List.replicate (self.future_year - self.present_year + 1).toNat 1) :=
  time_dependency_array_null self rfl

theorem time_dependency_array_raise (self : CostBenefit) {imp_time_depen : Option ℝ}
    (hneg : imp_time_depen.getD 0 < 0)
    (h1 : self.future_year - self.present_year + 1 = 1) :
    time_dependency_array self imp_time_depen = .error .zeroDivisionError := by
  simp only [time_dependency_array]
  rw [if_pos (ne_of_lt hneg), if_pos ⟨hneg, h1⟩]

theorem time_dependency_array_growth (self : CostBenefit) {e : ℝ} (hne : e ≠ 0)
    (h : ¬(e < 0 ∧ self.future_year - self.present_year + 1 = 1)) :
    time_dependency_array self (some e) =
      .ok ((List.range (self.future_year - self.present_year + 1).toNat).map
        (fun i : ℕ => (i : ℝ) ^ e
          / (((self.future_year - self.present_year + 1 : ℤ) : ℝ) - 1) ^ e)) := by
  simp only [time_dependency_array, Option.getD_some]
  rw [if_pos hne, if_neg h]

theorem time_dependency_array_ok_exists (self : CostBenefit) (imp_time_depen : Option ℝ)
    (h : ¬(imp_time_depen.getD 0 < 0 ∧ self.future_year - self.present_year + 1 = 1)) :
    ∃ td, time_dependency_array self imp_time_depen = .ok td := by
  by_cases h0 : imp_time_depen.getD 0 = 0
  · exact ⟨_, time_dependency_array_null self h0⟩
  · cases imp_time_depen with
    | none => exact ⟨_, time_dependency_array_none self⟩
    | some e =>
      refine ⟨_, time_dependency_array_growth self (by simpa using h0) (by simpa using h)⟩

theorem time_dependency_array_error_iff (self : CostBenefit) (imp_time_depen : Option ℝ) :
    (∃ err, time_dependency_array self imp_time_depen = .error err) ↔
      (imp_time_depen.getD 0 < 0 ∧ self.future_year - self.present_year + 1 = 1) := by
  constructor
  · rintro ⟨err, herr⟩
    by_contra hc
    obtain ⟨td, htd⟩ := time_dependency_array_ok_exists self imp_time_depen hc
    rw [htd] at herr
    cases herr
  · rintro ⟨h1, h2⟩
    exact ⟨_, time_dependency_array_raise self h1 h2⟩

/-! Characterization lemmas for `cost_ben_one` and the `_calc_cost_benefit`
loop. -/

theorem cost_ben_one_no_present {self : CostBenefit} {fut_base : MeasEval}
    (hf : dlookup no_measure self.imp_meas_future = some fut_base)
    (hp : self.imp_meas_present.isEmpty = true)
    (meas_name : String) (meas_val : MeasEval) (disc_rates : DiscRates) (time_dep : List ℝ) :
    cost_ben_one self meas_name meas_val disc_rates time_dep = .ok
      { self with
        benefit := dinsert meas_name (disc_rates.net_present_value self.present_year
          self.future_year (time_dep.map (fun t => t * (fut_base.risk - meas_val.risk))))
          self.benefit
        cost_ben_ratio := dinsert meas_name
          (fdiv (meas_val.cost + disc_rates.net_present_value self.present_year
            self.future_year (time_dep.map (fun t => t * meas_val.risk_transf)))
           (disc_rates.net_present_value self.present_year self.future_year
            (time_dep.map (fun t => t * (fut_base.risk - meas_val.risk)))))
          self.cost_ben_ratio } := by
  unfold cost_ben_one
  rw [hf]
  simp [hp]

theorem cost_ben_one_with_present {self : CostBenefit} {fut_base pres_base pres_meas : MeasEval}
    (meas_name : String) (meas_val : MeasEval) (disc_rates : DiscRates) (time_dep : List ℝ)
    (hf : dlookup no_measure self.imp_meas_future = some fut_base)
    (hp : self.imp_meas_present.isEmpty = false)
    (hpb : dlookup no_measure self.imp_meas_present = some pres_base)
    (hpm : dlookup meas_name self.imp_meas_present = some pres_meas) :
    cost_ben_one self meas_name meas_val disc_rates time_dep = .ok
      { self with
        benefit := dinsert meas_name (disc_rates.net_present_value self.present_year
          self.future_year (time_dep.map (fun t => (pres_base.risk - pres_meas.risk)
            + ((fut_base.risk - meas_val.risk) - (pres_base.risk - pres_meas.risk)) * t)))
          self.benefit
        cost_ben_ratio := dinsert meas_name
          (fdiv (meas_val.cost + disc_rates.net_present_value self.present_year
            self.future_year (time_dep.map (fun t => pres_meas.risk_transf
              + (meas_val.risk_transf - pres_meas.risk_transf) * t)))
           (disc_rates.net_present_value self.present_year self.future_year
            (time_dep.map (fun t => (pres_base.risk - pres_meas.risk)
              + ((fut_base.risk - meas_val.risk) - (pres_base.risk - pres_meas.risk)) * t))))
          self.cost_ben_ratio } := by
  unfold cost_ben_one
  rw [hf]
  simp [hp, hpb, hpm]

theorem cost_ben_one_shape (self : CostBenefit) (n : String) (mv : MeasEval)
    (d : DiscRates) (td : List ℝ) :
    (∃ e, cost_ben_one self n mv d td = .error e) ∨
    (∃ b r, cost_ben_one self n mv d td = .ok
      { self with benefit := dinsert n b self.benefit
                  cost_ben_ratio := dinsert n r self.cost_ben_ratio }) := by
  unfold cost_ben_one
  split
  all_goals try split
  all_goals try split
  all_goals first
    | exact Or.inl ⟨_, rfl⟩
    | exact Or.inr ⟨_, _, rfl⟩

theorem cost_ben_one_frame {self s' : CostBenefit} {n : String} {mv : MeasEval}
    {d : DiscRates} {td : List ℝ} (h : cost_ben_one self n mv d td = .ok s') :
    s'.present_year = self.present_year ∧ s'.future_year = self.future_year ∧
    s'.tot_climate_risk = self.tot_climate_risk ∧
    s'.unit = self.unit ∧ s'.color_rgb = self.color_rgb ∧
    s'.imp_meas_future = self.imp_meas_future ∧
    s'.imp_meas_present = self.imp_meas_present ∧
    ∃ b r, s'.benefit = dinsert n b self.benefit ∧
      s'.cost_ben_ratio = dinsert n r self.cost_ben_ratio := by
  rcases cost_ben_one_shape self n mv d td with ⟨e, he⟩ | ⟨b, r, hb⟩
  · rw [he] at h
    cases h
  · rw [hb] at h
    injection h with h
    subst h
    exact ⟨rfl, rfl, rfl, rfl, rfl, rfl, rfl, b, r, rfl, rfl⟩

theorem cost_ben_step_other {d : DiscRates} {td : List ℝ} (acc : CostBenefit)
    {entry : String × MeasEval} (h : entry.1 ≠ no_measure) :
    cost_ben_step d td acc entry = cost_ben_one acc entry.1 entry.2 d td := by
  unfold cost_ben_step
  simp [h]

theorem cost_ben_step_no_measure_no_present {d : DiscRates} {td : List ℝ}
    {acc : CostBenefit} {fut_base : MeasEval}
    (hf : dlookup no_measure acc.imp_meas_future = some fut_base)
    (hp : acc.imp_meas_present.isEmpty = true) {entry : String × MeasEval}
    (hk : entry.1 = no_measure) :
    cost_ben_step d td acc entry =
      .ok { acc with
        tot_climate_risk := npv_unaverted_impact acc fut_base.risk d td none } := by
  unfold cost_ben_step
  simp [hk, hf, hp]

theorem cost_ben_step_no_measure_with_present {d : DiscRates} {td : List ℝ}
    {acc : CostBenefit} {fut_base pres_base : MeasEval}
    (hf : dlookup no_measure acc.imp_meas_future = some fut_base)
    (hp : acc.imp_meas_present.isEmpty = false)
    (hpb : dlookup no_measure acc.imp_meas_present = some pres_base)
    {entry : String × MeasEval} (hk : entry.1 = no_measure) :
    cost_ben_step d td acc entry =
      .ok { acc with
        tot_climate_risk :=
          npv_unaverted_impact acc fut_base.risk d td (some pres_base.risk) } := by
  unfold cost_ben_step
  simp [hk, hf, hp, hpb]

theorem cost_ben_step_frame {d : DiscRates} {td : List ℝ} {acc s' : CostBenefit}
    {entry : String × MeasEval} (h : cost_ben_step d td acc entry = .ok s') :
    s'.present_year = acc.present_year ∧ s'.future_year = acc.future_year ∧
    s'.unit = acc.unit ∧ s'.color_rgb = acc.color_rgb ∧
    s'.imp_meas_future = acc.imp_meas_future ∧
    s'.imp_meas_present = acc.imp_meas_present := by
  unfold cost_ben_step at h
  by_cases hk : entry.1 = no_measure
  · rw [if_pos hk] at h
    split at h
    all_goals try split at h
    all_goals try split at h
    all_goals first
      | (injection h with h
         subst h
         exact ⟨rfl, rfl, rfl, rfl, rfl, rfl⟩)
      | cases h
  · rw [if_neg hk] at h
    obtain ⟨h1, h2, _, h4, h5, h6, h7, _⟩ := cost_ben_one_frame h
    exact ⟨h1, h2, h4, h5, h6, h7⟩

theorem cost_ben_step_ok {d : DiscRates} {td : List ℝ} {acc : CostBenefit}
    (entry : String × MeasEval)
    (hf : (dlookup no_measure acc.imp_meas_future).isSome)
    (hp : acc.imp_meas_present.isEmpty = false →
      (dlookup no_measure acc.imp_meas_present).isSome ∧
      (dlookup entry.1 acc.imp_meas_present).isSome) :
    ∃ s', cost_ben_step d td acc entry = .ok s' := by
  obtain ⟨fb, hfb⟩ := Option.isSome_iff_exists.mp hf
  by_cases hk : entry.1 = no_measure
  · cases hpe : acc.imp_meas_present.isEmpty with
    | false =>
      obtain ⟨hs1, _⟩ := hp hpe
      obtain ⟨pb, hpb⟩ := Option.isSome_iff_exists.mp hs1
      exact ⟨_, cost_ben_step_no_measure_with_present hfb hpe hpb hk⟩
    | true => exact ⟨_, cost_ben_step_no_measure_no_present hfb hpe hk⟩
  · rw [cost_ben_step_other acc hk]
    cases hpe : acc.imp_meas_present.isEmpty with
    | false =>
      obtain ⟨hs1, hs2⟩ := hp hpe
      obtain ⟨pb, hpb⟩ := Option.isSome_iff_exists.mp hs1
      obtain ⟨pm, hpm⟩ := Option.isSome_iff_exists.mp hs2
      exact ⟨_, cost_ben_one_with_present entry.1 entry.2 d td hfb hpe hpb hpm⟩
    | true => exact ⟨_, cost_ben_one_no_present hfb hpe entry.1 entry.2 d td⟩

theorem foldlM_step_frame {d : DiscRates} {td : List ℝ} (l : List (String × MeasEval)) :
    ∀ {acc s' : CostBenefit}, l.foldlM (cost_ben_step d td) acc = .ok s' →
    s'.present_year = acc.present_year ∧ s'.future_year = acc.future_year ∧
    s'.unit = acc.unit ∧ s'.color_rgb = acc.color_rgb ∧
    s'.imp_meas_future = acc.imp_meas_future ∧
    s'.imp_meas_present = acc.imp_meas_present := by
  induction l with
  | nil =>
    intro acc s' h
    have hh : (Except.ok acc : Except CBErr CostBenefit) = .ok s' := h
    injection hh with hh
    subst hh
    exact ⟨rfl, rfl, rfl, rfl, rfl, rfl⟩
  | cons p ps ih =>
    intro acc s' h
    rw [List.foldlM_cons] at h
    cases hstep : cost_ben_step d td acc p with
    | error e =>
      rw [hstep] at h
      cases h
    | ok mid =>
      rw [hstep] at h
      have hh : ps.foldlM (cost_ben_step d td) mid = .ok s' := h
      obtain ⟨a1, a2, a3, a4, a5, a6⟩ := ih hh
      obtain ⟨b1, b2, b3, b4, b5, b6⟩ := cost_ben_step_frame hstep
      exact ⟨a1.trans b1, a2.trans b2, a3.trans b3, a4.trans b4, a5.trans b5, a6.trans b6⟩

theorem foldlM_step_ok (d : DiscRates) (td : List ℝ) (l : List (String × MeasEval)) :
    ∀ (acc : CostBenefit),
    (dlookup no_measure acc.imp_meas_future).isSome →
    (acc.imp_meas_present.isEmpty = false →
      (dlookup no_measure acc.imp_meas_present).isSome ∧
      ∀ p ∈ l, (dlookup p.1 acc.imp_meas_present).isSome) →
    ∃ s', l.foldlM (cost_ben_step d td) acc = .ok s' := by
  induction l with
  | nil => exact fun acc _ _ => ⟨acc, rfl⟩
  | cons p ps ih =>
    intro acc hf hp
    obtain ⟨mid, hmid⟩ :=
      cost_ben_step_ok p hf (fun hpe => ⟨(hp hpe).1, (hp hpe).2 p (by simp)⟩)
    obtain ⟨b1, b2, b3, b4, b5, b6⟩ := cost_ben_step_frame hmid
    obtain ⟨s', hs'⟩ := ih mid (by rw [b5]; exact hf) (fun hpe => by
      rw [b6] at hpe
      exact ⟨by rw [b6]; exact (hp hpe).1,
             fun q hq => by rw [b6]; exact (hp hpe).2 q (by simp [hq])⟩)
    refine ⟨s', ?_⟩
    rw [List.foldlM_cons, hmid]
    exact hs'

theorem combine_imp_meas_ok {imp_dict : List (String × MeasEval)} {base : MeasEval}
    {base_imp : Impact} {in_meas : List MeasEval} {in_imps : List Impact}
    {first_imp : Impact} {rest : List Impact} {in_meas_names : List String}
    (eng : ImpactEngine) (new_name : String) (risk_transf : ℝ × ℝ) (risk_func : Impact → ℝ)
    (h1 : dlookup no_measure imp_dict = some base)
    (h2 : base.impact = some base_imp)
    (h3 : in_meas_names.mapM (fun name => dlookup name imp_dict) = some in_meas)
    (h4 : in_meas.mapM (fun m => m.impact) = some in_imps)
    (h5 : in_imps = first_imp :: rest) :
    combine_imp_meas imp_dict eng in_meas_names new_name risk_transf risk_func =
      (let sum_ben := (in_imps.map (fun imp => vsub base_imp.at_event imp.at_event)).foldr
        vadd (List.replicate base_imp.at_event.length 0)
      let at0 := vmax0 (vsub base_imp.at_event sum_ben)
      let layered :=
        if risk_transf ≠ ((0 : ℝ), (0 : ℝ)) then
          let imp_layer := at0.map (fun x => min (max (x - risk_transf.1) 0) risk_transf.2)
          ((vmul imp_layer first_imp.frequency).sum, vmax0 (vsub at0 imp_layer))
        else ((0 : ℝ), at0)
      let new_imp : Impact :=
        { first_imp with
          at_event := layered.2
          eai_exp := []
          aai_agg := (vmul layered.2 first_imp.frequency).sum }
      .ok (dinsert new_name
        { cost := (in_meas.map MeasEval.cost).sum
          risk := risk_func new_imp
          risk_transf := layered.1
          efc := eng.calc_freq_curve new_imp.at_event new_imp.frequency
          impact := some new_imp } imp_dict)) := by
  subst h5
  unfold combine_imp_meas
  simp only [h1, h2, h3, h4]

theorem calc_cost_benefit_frame {self s' : CostBenefit} {d : DiscRates} {itd : Option ℝ}
    (h : calc_cost_benefit self d itd = .ok s') :
    s'.present_year = self.present_year ∧ s'.future_year = self.future_year ∧
    s'.unit = self.unit ∧ s'.color_rgb = self.color_rgb ∧
    s'.imp_meas_future = self.imp_meas_future ∧
    s'.imp_meas_present = self.imp_meas_present := by
  unfold calc_cost_benefit at h
  split at h
  · cases h
  · split at h
    · cases h
    · split at h
      all_goals first
        | exact foldlM_step_frame _ h
        | cases h

theorem calc_impact_measures_future (self : CostBenefit) (eng : ImpactEngine)
    (hazard : Hazard) (exposures : Exposures) (meas_set : MeasureSet)
    (imp_fun_set : ImpactFuncSet) (risk_func : Impact → ℝ) (save_imp : Bool) :
    (calc_impact_measures self eng hazard exposures meas_set imp_fun_set future_label
      risk_func save_imp).imp_meas_present = self.imp_meas_present ∧
    (calc_impact_measures self eng hazard exposures meas_set imp_fun_set future_label
      risk_func save_imp).present_year = self.present_year ∧
    (calc_impact_measures self eng hazard exposures meas_set imp_fun_set future_label
      risk_func save_imp).future_year = self.future_year := by
  unfold calc_impact_measures
  rw [if_pos rfl]
  exact ⟨rfl, rfl, rfl⟩

theorem calc_impact_measures_present (self : CostBenefit) (eng : ImpactEngine)
    (hazard : Hazard) (exposures : Exposures) (meas_set : MeasureSet)
    (imp_fun_set : ImpactFuncSet) (risk_func : Impact → ℝ) (save_imp : Bool) :
    (calc_impact_measures self eng hazard exposures meas_set imp_fun_set present_label
      risk_func save_imp).imp_meas_future = self.imp_meas_future ∧
    (calc_impact_measures self eng hazard exposures meas_set imp_fun_set present_label
      risk_func save_imp).present_year = self.present_year ∧
    (calc_impact_measures self eng hazard exposures meas_set imp_fun_set present_label
      risk_func save_imp).future_year = self.future_year := by
  unfold calc_impact_measures
  rw [if_neg (by decide)]
  exact ⟨rfl, rfl, rfl⟩

theorem combine_imp_meas_ok_nolayer {imp_dict : List (String × MeasEval)} {base : MeasEval}
    {base_imp : Impact} {in_meas : List MeasEval} {in_imps : List Impact}
    {first_imp : Impact} {rest : List Impact} {in_meas_names : List String}
    (eng : ImpactEngine) (new_name : String) (risk_func : Impact → ℝ)
    (h1 : dlookup no_measure imp_dict = some base)
    (h2 : base.impact = some base_imp)
    (h3 : in_meas_names.mapM (fun name => dlookup name imp_dict) = some in_meas)
    (h4 : in_meas.mapM (fun m => m.impact) = some in_imps)
    (h5 : in_imps = first_imp :: rest) :
    combine_imp_meas imp_dict eng in_meas_names new_name ((0 : ℝ), (0 : ℝ)) risk_func =
      .ok (dinsert new_name
        { cost := (in_meas.map MeasEval.cost).sum
          risk := risk_func { first_imp with
            at_event := combined_at0 base_imp in_imps
            eai_exp := []
            aai_agg := (vmul (combined_at0 base_imp in_imps) first_imp.frequency).sum }
          risk_transf := 0
          efc := eng.calc_freq_curve (combined_at0 base_imp in_imps) first_imp.frequency
          impact := some { first_imp with
            at_event := combined_at0 base_imp in_imps
            eai_exp := []
            aai_agg := (vmul (combined_at0 base_imp in_imps) first_imp.frequency).sum } }
        imp_dict) := by
  rw [combine_imp_meas_ok eng new_name ((0 : ℝ), (0 : ℝ)) risk_func h1 h2 h3 h4 h5]
  simp only [if_neg (show ¬(((0 : ℝ), (0 : ℝ)) ≠ ((0 : ℝ), (0 : ℝ))) from by simp),
    sum_ben_vec, combined_at0]

theorem combine_imp_meas_ok_layer {imp_dict : List (String × MeasEval)} {base : MeasEval}
    {base_imp : Impact} {in_meas : List MeasEval} {in_imps : List Impact}
    {first_imp : Impact} {rest : List Impact} {in_meas_names : List String}
    (eng : ImpactEngine) (new_name : String) (att cov : ℝ) (risk_func : Impact → ℝ)
    (hne : ((att, cov) : ℝ × ℝ) ≠ ((0 : ℝ), (0 : ℝ)))
    (h1 : dlookup no_measure imp_dict = some base)
    (h2 : base.impact = some base_imp)
    (h3 : in_meas_names.mapM (fun name => dlookup name imp_dict) = some in_meas)
    (h4 : in_meas.mapM (fun m => m.impact) = some in_imps)
    (h5 : in_imps = first_imp :: rest) :
    combine_imp_meas imp_dict eng in_meas_names new_name (att, cov) risk_func =
      .ok (dinsert new_name
        { cost := (in_meas.map MeasEval.cost).sum
          risk := risk_func { first_imp with
            at_event := vmax0 (vsub (combined_at0 base_imp in_imps)
              (layer_vec att cov (combined_at0 base_imp in_imps)))
            eai_exp := []
            aai_agg := (vmul (vmax0 (vsub (combined_at0 base_imp in_imps)
              (layer_vec att cov (combined_at0 base_imp in_imps))))
              first_imp.frequency).sum }
          risk_transf := (vmul (layer_vec att cov (combined_at0 base_imp in_imps))
            first_imp.frequency).sum
          efc := eng.calc_freq_curve
            (vmax0 (vsub (combined_at0 base_imp in_imps)
              (layer_vec att cov (combined_at0 base_imp in_imps))))
            first_imp.frequency
          impact := some { first_imp with
            at_event := vmax0 (vsub (combined_at0 base_imp in_imps)
              (layer_vec att cov (combined_at0 base_imp in_imps)))
            eai_exp := []
            aai_agg := (vmul (vmax0 (vsub (combined_at0 base_imp in_imps)
              (layer_vec att cov (combined_at0 base_imp in_imps))))
              first_imp.frequency).sum } }
        imp_dict) := by
  rw [combine_imp_meas_ok eng new_name (att, cov) risk_func h1 h2 h3 h4 h5]
  simp only [if_pos hne, sum_ben_vec, combined_at0, layer_vec]

theorem combine_imp_meas_shape {imp_dict : List (String × MeasEval)} {base : MeasEval}
    {base_imp : Impact} {in_meas : List MeasEval} {in_imps : List Impact}
    {first_imp : Impact} {rest : List Impact} {in_meas_names : List String}
    (eng : ImpactEngine) (new_name : String) (risk_transf : ℝ × ℝ) (risk_func : Impact → ℝ)
    (h1 : dlookup no_measure imp_dict = some base)
    (h2 : base.impact = some base_imp)
    (h3 : in_meas_names.mapM (fun name => dlookup name imp_dict) = some in_meas)
    (h4 : in_meas.mapM (fun m => m.impact) = some in_imps)
    (h5 : in_imps = first_imp :: rest) :
    ∃ v : MeasEval,
      combine_imp_meas imp_dict eng in_meas_names new_name risk_transf risk_func
        = .ok (dinsert new_name v imp_dict) ∧
      ∃ nimp, v.impact = some nimp ∧ nimp.frequency = first_imp.frequency ∧
        nimp.eai_exp = [] ∧ nimp.unit = first_imp.unit ∧
        nimp.tot_value = first_imp.tot_value := by
  rw [combine_imp_meas_ok eng new_name risk_transf risk_func h1 h2 h3 h4 h5]
  exact ⟨_, rfl, _, rfl, rfl, rfl, rfl, rfl⟩

theorem map_getD_lt {a : List ℝ} (f : ℝ → ℝ) {i : ℕ} (h : i < a.length) :
    (a.map f).getD i 0 = f (a.getD i 0) := by
  rw [List.getD_eq_getElem _ _ (by simpa using h), List.getD_eq_getElem _ _ h,
    List.getElem_map]

theorem sum_ben_vec_length {base_imp : Impact} {in_imps : List Impact}
    (hLi : ∀ imp ∈ in_imps, imp.at_event.length = base_imp.at_event.length) :
    (sum_ben_vec base_imp in_imps).length = base_imp.at_event.length :=
  foldr_vadd_length (by
    intro v hv
    obtain ⟨imp, hmem, rfl⟩ := List.mem_map.mp hv
    exact vsub_length (hLi imp hmem).symm)

theorem sum_ben_vec_getD {base_imp : Impact} {in_imps : List Impact}
    (hLi : ∀ imp ∈ in_imps, imp.at_event.length = base_imp.at_event.length) (i : ℕ) :
    (sum_ben_vec base_imp in_imps).getD i 0 =
      (in_imps.map (fun imp =>
        base_imp.at_event.getD i 0 - imp.at_event.getD i 0)).sum := by
  unfold sum_ben_vec
  rw [foldr_vadd_getD (by
    intro v hv
    obtain ⟨imp, hmem, rfl⟩ := List.mem_map.mp hv
    exact vsub_length (hLi imp hmem).symm) i, List.map_map]
  congr 1
  exact List.map_congr_left (fun imp hmem => vsub_getD (hLi imp hmem).symm i)

theorem combined_at0_length {base_imp : Impact} {in_imps : List Impact}
    (hLi : ∀ imp ∈ in_imps, imp.at_event.length = base_imp.at_event.length) :
    (combined_at0 base_imp in_imps).length = base_imp.at_event.length := by
  unfold combined_at0
  rw [vmax0_length, vsub_length (sum_ben_vec_length hLi).symm]

theorem combined_at0_getD {base_imp : Impact} {in_imps : List Impact}
    (hLi : ∀ imp ∈ in_imps, imp.at_event.length = base_imp.at_event.length) (i : ℕ) :
    (combined_at0 base_imp in_imps).getD i 0 =
      max (base_imp.at_event.getD i 0 -
        (in_imps.map (fun imp =>
          base_imp.at_event.getD i 0 - imp.at_event.getD i 0)).sum) 0 := by
  unfold combined_at0
  rw [vmax0_getD, vsub_getD (sum_ben_vec_length hLi).symm, sum_ben_vec_getD hLi]

theorem layer_vec_length (att cov : ℝ) (v : List ℝ) :
    (layer_vec att cov v).length = v.length := by
  simp [layer_vec]

theorem layer_vec_getD {att cov : ℝ} {v : List ℝ} {i : ℕ} (h : i < v.length) :
    (layer_vec att cov v).getD i 0 = min (max (v.getD i 0 - att) 0) cov :=
  map_getD_lt _ h

/-! Claim theorems and their witnesses. -/

/-- C1: for every measure other than the `no measure` baseline present in the
future evaluation mapping, `_cost_ben_one` computes
`future_benefit = future baseline risk - measure future risk`; when a present
snapshot exists the per-year benefit sequence is
`present_benefit + (future_benefit - present_benefit) * time_dependency` and
the risk-transfer sequence interpolates analogously; when no present snapshot
exists the sequences are `time_dependency * future_benefit` and
`time_dependency * future risk transfer`; both sequences are discounted via
`net_present_value` over `[present_year, future_year]`, the stored benefit is
the discounted benefit, and the stored ratio is
`(cost + discounted risk transfer) / discounted benefit`. -/
theorem C1_cost_ben_one_correct (self : CostBenefit) (meas_name : String)
    (meas_val : MeasEval) (disc_rates : DiscRates) (time_dep : List ℝ)
    (fut_base : MeasEval) (_hnm : meas_name ≠ no_measure)
    (_hm : dlookup meas_name self.imp_meas_future = some meas_val)
    (hf : dlookup no_measure self.imp_meas_future = some fut_base) :
    (self.imp_meas_present.isEmpty = true →
      ∃ s', cost_ben_one self meas_name meas_val disc_rates time_dep = .ok s' ∧
        dlookup meas_name s'.benefit =
          some (disc_rates.net_present_value self.present_year self.future_year
            (time_dep.map (fun t => t * (fut_base.risk - meas_val.risk)))) ∧
        dlookup meas_name s'.cost_ben_ratio =
          some (fdiv
            (meas_val.cost + disc_rates.net_present_value self.present_year self.future_year
              (time_dep.map (fun t => t * meas_val.risk_transf)))
            (disc_rates.net_present_value self.present_year self.future_year
              (time_dep.map (fun t => t * (fut_base.risk - meas_val.risk)))))) ∧
    (∀ pres_base pres_meas : MeasEval,
      self.imp_meas_present.isEmpty = false →
      dlookup no_measure self.imp_meas_present = some pres_base →
      dlookup meas_name self.imp_meas_present = some pres_meas →
      ∃ s', cost_ben_one self meas_name meas_val disc_rates time_dep = .ok s' ∧
        dlookup meas_name s'.benefit =
          some (disc_rates.net_present_value self.present_year self.future_year
            (time_dep.map (fun t => (pres_base.risk - pres_meas.risk)
              + ((fut_base.risk - meas_val.risk) - (pres_base.risk - pres_meas.risk)) * t))) ∧
        dlookup meas_name s'.cost_ben_ratio =
          some (fdiv
            (meas_val.cost + disc_rates.net_present_value self.present_year self.future_year
              (time_dep.map (fun t => pres_meas.risk_transf
                + (meas_val.risk_transf - pres_meas.risk_transf) * t)))
            (disc_rates.net_present_value self.present_year self.future_year
              (time_dep.map (fun t => (pres_base.risk - pres_meas.risk)
                + ((fut_base.risk - meas_val.risk) - (pres_base.risk - pres_meas.risk)) * t))))) := by
  constructor
  · intro hp
    refine ⟨_, cost_ben_one_no_present hf hp meas_name meas_val disc_rates time_dep, ?_, ?_⟩
    · exact dlookup_dinsert_self _ _ _
    · exact dlookup_dinsert_self _ _ _
  · intro pb pm hp hpb hpm
    refine ⟨_, cost_ben_one_with_present meas_name meas_val disc_rates time_dep hf hp hpb hpm,
      ?_, ?_⟩
    · exact dlookup_dinsert_self _ _ _
    · exact dlookup_dinsert_self _ _ _

/-- Witness for C1: a concrete one-measure future-only state with zero
discounting; the stored benefit evaluates to `75` and the stored ratio to
`fdiv 50 75`. -/
theorem C1_witness :
    ("m" : String) ≠ no_measure ∧
    ∃ s', cost_ben_one cbC1 "m" (mkEval 50 150 0 none) discSum [(1 : ℝ)/2, 1] = .ok s' ∧
      dlookup "m" s'.benefit = some 75 ∧
      dlookup "m" s'.cost_ben_ratio = some (fdiv 50 75) := by
  have hnm : ("m" : String) ≠ no_measure := by decide
  obtain ⟨s', h1, h2, h3⟩ :=
    (C1_cost_ben_one_correct cbC1 "m" (mkEval 50 150 0 none) discSum [(1 : ℝ)/2, 1]
      (mkEval 0 200 0 none) hnm rfl rfl).1 rfl
  refine ⟨hnm, s', h1, ?_, ?_⟩
  · rw [h2]
    norm_num [discSum, mkEval, cbC1, CostBenefit.init]
  · rw [h3]
    norm_num [discSum, mkEval, cbC1, CostBenefit.init]

/-- C6: a measure with zero or negative discounted benefit does not make the
computation raise: `_cost_ben_one` still returns normally, the unguarded
division is stored and surfaced as-is (`fdiv` of the numerator and the
discounted benefit), an exact-zero benefit with positive numerator is stored
as positive infinity and a negative benefit as the finite negative quotient;
in particular a measure whose risk equals the baseline risk with no risk
transfer and positive cost yields benefit `0` and ratio infinity, not a
crash. -/
theorem C6_nonpositive_benefit_surfaced (self : CostBenefit) (meas_name : String)
    (meas_val : MeasEval) (disc_rates : DiscRates) (time_dep : List ℝ)
    (fut_base : MeasEval)
    (hf : dlookup no_measure self.imp_meas_future = some fut_base)
    (hp : self.imp_meas_present.isEmpty = true) :
    ∃ s', cost_ben_one self meas_name meas_val disc_rates time_dep = .ok s' ∧
      dlookup meas_name s'.benefit =
        some (disc_rates.net_present_value self.present_year self.future_year
          (time_dep.map (fun t => t * (fut_base.risk - meas_val.risk)))) ∧
      dlookup meas_name s'.cost_ben_ratio =
        some (fdiv
          (meas_val.cost + disc_rates.net_present_value self.present_year self.future_year
            (time_dep.map (fun t => t * meas_val.risk_transf)))
          (disc_rates.net_present_value self.present_year self.future_year
            (time_dep.map (fun t => t * (fut_base.risk - meas_val.risk))))) ∧
      (∀ a b : ℝ, b = 0 → 0 < a → fdiv a b = .posInf) ∧
      (∀ a b : ℝ, b < 0 → fdiv a b = .finite (a / b)) ∧
      (meas_val.risk = fut_base.risk → meas_val.risk_transf = 0 →
        disc_rates.net_present_value self.present_year self.future_year
          (List.replicate time_dep.length 0) = 0 →
        0 < meas_val.cost →
        dlookup meas_name s'.benefit = some 0 ∧
        dlookup meas_name s'.cost_ben_ratio = some .posInf) := by
  refine ⟨_, cost_ben_one_no_present hf hp meas_name meas_val disc_rates time_dep,
    dlookup_dinsert_self _ _ _, dlookup_dinsert_self _ _ _, ?_, ?_, ?_⟩
  · intro a b hb ha
    simp [fdiv, hb, ha]
  · intro a b hb
    simp [fdiv, hb.ne]
  · intro hr hrt hz hc
    have hmapb : time_dep.map (fun t => t * (fut_base.risk - meas_val.risk))
        = List.replicate time_dep.length 0 := by
      rw [hr]
      simp [List.map_const']
    have hmapt : time_dep.map (fun t => t * meas_val.risk_transf)
        = List.replicate time_dep.length 0 := by
      rw [hrt]
      simp [List.map_const']
    constructor
    · rw [dlookup_dinsert_self, hmapb, hz]
    · rw [dlookup_dinsert_self, hmapb, hmapt, hz]
      have : fdiv (meas_val.cost + 0) 0 = .posInf := by
        simp [fdiv, hc]
      rw [this]

/-- Witness for C6: a zero-effect measure (risk equal to the baseline risk,
no risk transfer, cost 10) on the concrete future-only state stores benefit
`0` and ratio positive infinity instead of raising. -/
theorem C6_witness :
    ∃ s', cost_ben_one cbC1 "z" (mkEval 10 200 0 none) discSum [(1 : ℝ)/2, 1] = .ok s' ∧
      dlookup "z" s'.benefit = some 0 ∧
      dlookup "z" s'.cost_ben_ratio = some FloatVal.posInf := by
  obtain ⟨s', hok, _, _, _, _, hpart⟩ :=
    C6_nonpositive_benefit_surfaced cbC1 "z" (mkEval 10 200 0 none) discSum [(1 : ℝ)/2, 1]
      (mkEval 0 200 0 none) rfl rfl
  obtain ⟨hb0, hr0⟩ := hpart (by norm_num [mkEval]) (by norm_num [mkEval])
    (by norm_num [discSum, List.replicate]) (by norm_num [mkEval])
  exact ⟨s', hok, hb0, hr0⟩

/-- C5: the total climate risk of the `no measure` loop entry is
`_npv_unaverted_impact`: with a present baseline risk it is the
`net_present_value` over `[present_year, future_year]` of
`present_risk + (future_risk - present_risk) * time_dependency`, otherwise the
`net_present_value` of `time_dependency * future_risk`; in particular with
only a future snapshot and a null exponent it is the discounted NPV of the
constant future baseline risk repeated for every year of the horizon. -/
theorem C5_npv_unaverted_impact_correct (self : CostBenefit) (risk_future : ℝ)
    (disc_rates : DiscRates) (time_dep : List ℝ)
    (hn : (self.future_year - self.present_year + 1).toNat = n) :
    (∀ p : ℝ, npv_unaverted_impact self risk_future disc_rates time_dep (some p) =
      disc_rates.net_present_value self.present_year self.future_year
        (time_dep.map (fun t => p + (risk_future - p) * t))) ∧
    (npv_unaverted_impact self risk_future disc_rates time_dep none =
      disc_rates.net_present_value self.present_year self.future_year
        (time_dep.map (fun t => t * risk_future))) ∧
    (∀ (acc : CostBenefit) (fut_base : MeasEval) (entry : String × MeasEval),
      entry.1 = no_measure →
      dlookup no_measure acc.imp_meas_future = some fut_base →
      (acc.imp_meas_present.isEmpty = true →
        cost_ben_step disc_rates time_dep acc entry =
          .ok { acc with tot_climate_risk :=
            npv_unaverted_impact acc fut_base.risk disc_rates time_dep none }) ∧
      (∀ pres_base : MeasEval,
        acc.imp_meas_present.isEmpty = false →
        dlookup no_measure acc.imp_meas_present = some pres_base →
        cost_ben_step disc_rates time_dep acc entry =
          .ok { acc with tot_climate_risk :=
            npv_unaverted_impact acc fut_base.risk disc_rates time_dep (some pres_base.risk) })) ∧
    (∀ td, time_dependency_array self none = .ok td →
      npv_unaverted_impact self risk_future disc_rates td none =
        disc_rates.net_present_value self.present_year self.future_year
          (List.replicate n risk_future)) := by
  refine ⟨?_, ?_, ?_, ?_⟩
  · intro p
    unfold npv_unaverted_impact
    by_cases hp : p = 0
    · subst hp
      rw [if_neg (by simp)]
      congr 1
      exact List.map_congr_left (fun t _ => by ring)
    · rw [if_pos (by simpa using hp)]
      rfl
  · unfold npv_unaverted_impact
    rw [if_neg (by simp)]
  · intro acc fut_base entry hk hfb
    exact ⟨fun hpe => cost_ben_step_no_measure_no_present hfb hpe hk,
      fun pb hpe hpb => cost_ben_step_no_measure_with_present hfb hpe hpb hk⟩
  · intro td htd
    rw [time_dependency_array_none self, hn] at htd
    injection htd with htd
    subst htd
    unfold npv_unaverted_impact
    rw [if_neg (by simp)]
    congr 1
    simp

/-- Witness for C5: the concrete scenario present risk 100, future risk 200,
time dependency `[0, 1/2, 1]`, zero discounting: the interpolated baseline NPV
is `100 + 150 + 200 = 450`. -/
theorem C5_witness :
    npv_unaverted_impact cbC1 200 discSum [0, (1 : ℝ)/2, 1] (some 100) = 450 ∧
    npv_unaverted_impact cbC1 200 discSum (List.replicate 2 1) none
      = discSum.net_present_value cbC1.present_year cbC1.future_year
          (List.replicate 2 (200 : ℝ)) := by
  obtain ⟨h1, _, _, h4⟩ :=
    C5_npv_unaverted_impact_correct cbC1 200 discSum [0, (1 : ℝ)/2, 1] rfl
  constructor
  · rw [h1 100]
    norm_num [discSum, cbC1, CostBenefit.init]
  · exact h4 (List.replicate 2 1) (time_dependency_array_none cbC1)

/-- C3: for `future_year ≥ present_year` with
`n = future_year - present_year + 1 ≥ 2`, the time-dependency array is built
without raising (its values returned under `.ok`) and has length `n`; with a
null exponent it is the all-ones sequence; with a set exponent `e` it equals
`(i / (n-1))^e` for `i` in `[0, n-1]`, so for every `e > 0` its first element
is `0`, its last element is `1`, and it is non-decreasing. -/
theorem C3_time_dependency_array_spec (self : CostBenefit) (e : ℝ)
    (hge : self.present_year + 1 ≤ self.future_year)
    (hn : (self.future_year - self.present_year + 1).toNat = n) :
    (time_dependency_array self none = .ok (List.replicate n 1)) ∧
    (∀ td, time_dependency_array self none = .ok td → td.length = n) ∧
    (∃ td, time_dependency_array self (some e) = .ok td ∧ td.length = n) ∧
    (0 < e →
      time_dependency_array self (some e)
        = .ok ((List.range n).map (fun i : ℕ => ((i : ℝ) / ((n : ℝ) - 1)) ^ e)) ∧
      ∀ td, time_dependency_array self (some e) = .ok td →
        td.head? = some 0 ∧ td.getLast? = some 1 ∧ List.Pairwise (· ≤ ·) td) := by
  have hn2 : 2 ≤ n := by omega
  have hraise : ¬(e < 0 ∧ self.future_year - self.present_year + 1 = 1) := by
    rintro ⟨-, h1⟩
    omega
  have hc : (0 : ℝ) < (n : ℝ) - 1 := by
    have : (2 : ℝ) ≤ (n : ℝ) := by exact_mod_cast hn2
    linarith
  have hnull : time_dependency_array self none = .ok (List.replicate n 1) := by
    rw [time_dependency_array_none self, hn]
  refine ⟨hnull, ?_, ?_, ?_⟩
  · intro td htd
    rw [hnull] at htd
    injection htd with htd
    rw [← htd]
    simp
  · by_cases he : e = 0
    · subst he
      refine ⟨_, time_dependency_array_null self (by simp), ?_⟩
      rw [hn]
      simp
    · refine ⟨_, time_dependency_array_growth self he hraise, ?_⟩
      rw [hn]
      simp
  · intro he
    have hip : ((self.future_year - self.present_year + 1 : ℤ) : ℝ) = (n : ℝ) := by
      have hzz : self.future_year - self.present_year + 1 = (n : ℤ) := by omega
      rw [hzz]
      push_cast
      ring
    have harr : time_dependency_array self (some e)
        = .ok ((List.range n).map (fun i : ℕ => ((i : ℝ) / ((n : ℝ) - 1)) ^ e)) := by
      rw [time_dependency_array_growth self (ne_of_gt he) hraise, hn]
      exact congrArg Except.ok (List.map_congr_left (fun i _ => by
        rw [hip]
        exact (Real.div_rpow (Nat.cast_nonneg i) hc.le e).symm))
    refine ⟨harr, ?_⟩
    intro td htd
    rw [harr] at htd
    injection htd with htd
    subst htd
    obtain ⟨m, hm⟩ : ∃ m, n = m + 1 := ⟨n - 1, by omega⟩
    have hm1 : ((n : ℝ) - 1) = (m : ℝ) := by
      rw [hm]
      push_cast
      ring
    have hmne : (m : ℝ) ≠ 0 := by
      have h1 : 1 ≤ m := by omega
      have : (0 : ℝ) < (m : ℝ) := by exact_mod_cast h1
      exact this.ne'
    refine ⟨?_, ?_, ?_⟩
    · rw [List.head?_map, hm, List.range_succ_eq_map]
      simp [Real.zero_rpow (ne_of_gt he)]
    · rw [hm, List.range_succ, List.map_append, List.map_cons, List.map_nil,
        List.getLast?_concat]
      rw [hm] at hm1
      simp [hm1, div_self hmne, Real.one_rpow]
    · refine List.pairwise_map.mpr ?_
      refine (List.pairwise_lt_range n).imp ?_
      intro i j hij
      exact Real.rpow_le_rpow (div_nonneg (Nat.cast_nonneg i) hc.le)
        ((div_le_div_iff_of_pos_right hc).mpr (by exact_mod_cast hij.le)) he.le

/-- Witness for C3: on the concrete state spanning 2020-2021 (`n = 2`), the
null exponent gives `[1, 1]` and exponent `1` gives the linear array `[0, 1]`
with first element `0` and last element `1`, both without raising. -/
theorem C3_witness :
    (cbC1.present_year + 1 ≤ cbC1.future_year) ∧
    time_dependency_array cbC1 none = .ok [1, 1] ∧
    time_dependency_array cbC1 (some 1) = .ok [0, 1] ∧
    ∃ td, time_dependency_array cbC1 (some 1) = .ok td ∧
      td.head? = some 0 ∧ td.getLast? = some 1 := by
  have hge : cbC1.present_year + 1 ≤ cbC1.future_year := by decide
  have hn : (cbC1.future_year - cbC1.present_year + 1).toNat = 2 := by decide
  obtain ⟨h1, _, _, h4⟩ := C3_time_dependency_array_spec cbC1 1 hge hn
  obtain ⟨hf, hrest⟩ := h4 (by norm_num)
  have hlist : time_dependency_array cbC1 (some 1) = .ok [0, 1] := by
    rw [hf, show List.range 2 = [0, 1] from rfl]
    norm_num [Real.rpow_one]
  obtain ⟨hh, hl, -⟩ := hrest _ hlist
  refine ⟨hge, ?_, hlist, _, hlist, hh, hl⟩
  rw [h1]
  rfl

/-- C8 (amended): `_calc_cost_benefit` raises exactly when
`future_year - present_year + 1 ≤ 0`, or the future evaluation mapping is
empty, or a negative time-dependency exponent is requested over a degenerate
one-year span (`future_year - present_year + 1 = 1`, Python's
`ZeroDivisionError` from the scalar `0 ** negative` in
`_time_dependency_array`) — the original claim's two conditions alone do not
cover the third raise; and in every error case it fails fast before any
discounting: the result does not depend on the discount-rates collaborator
and no successful state (hence no benefit, ratio or total-risk write) is
produced. -/
theorem C8_calc_cost_benefit_guards (self : CostBenefit) (disc_rates : DiscRates)
    (imp_time_depen : Option ℝ)
    (hf : self.imp_meas_future.isEmpty = false →
      (dlookup no_measure self.imp_meas_future).isSome)
    (hp : self.imp_meas_present.isEmpty = false →
      (dlookup no_measure self.imp_meas_present).isSome ∧
      ∀ p ∈ self.imp_meas_future, (dlookup p.1 self.imp_meas_present).isSome) :
    ((∃ err, calc_cost_benefit self disc_rates imp_time_depen = .error err) ↔
      (self.future_year - self.present_year + 1 ≤ 0 ∨
        self.imp_meas_future.isEmpty = true ∨
        (imp_time_depen.getD 0 < 0 ∧ self.future_year - self.present_year + 1 = 1))) ∧
    ((self.future_year - self.present_year + 1 ≤ 0 ∨
        self.imp_meas_future.isEmpty = true ∨
        (imp_time_depen.getD 0 < 0 ∧ self.future_year - self.present_year + 1 = 1)) →
      ∀ disc_rates' : DiscRates,
        calc_cost_benefit self disc_rates imp_time_depen
          = calc_cost_benefit self disc_rates' imp_time_depen) := by
  by_cases h1 : self.future_year - self.present_year + 1 ≤ 0
  · refine ⟨⟨fun _ => Or.inl h1, fun _ => ⟨.valueError, ?_⟩⟩, fun _ d' => ?_⟩
    · unfold calc_cost_benefit
      rw [if_pos h1]
    · unfold calc_cost_benefit
      rw [if_pos h1, if_pos h1]
  · cases h2 : self.imp_meas_future.isEmpty with
    | true =>
      refine ⟨⟨fun _ => Or.inr (Or.inl rfl), fun _ => ⟨.valueError, ?_⟩⟩, fun _ d' => ?_⟩
      · unfold calc_cost_benefit
        rw [if_neg h1, if_pos (by simp [h2])]
      · unfold calc_cost_benefit
        rw [if_neg h1, if_neg h1, if_pos (by simp [h2]), if_pos (by simp [h2])]
    | false =>
      by_cases h3 : imp_time_depen.getD 0 < 0 ∧ self.future_year - self.present_year + 1 = 1
      · have hcb : ∀ d : DiscRates, calc_cost_benefit self d imp_time_depen
            = .error .zeroDivisionError := by
          intro d
          unfold calc_cost_benefit
          rw [if_neg h1, if_neg (by simp [h2]),
            time_dependency_array_raise self h3.1 h3.2]
        refine ⟨⟨fun _ => Or.inr (Or.inr h3),
          fun _ => ⟨.zeroDivisionError, hcb disc_rates⟩⟩,
          fun _ d' => (hcb disc_rates).trans (hcb d').symm⟩
      · obtain ⟨td, htd⟩ := time_dependency_array_ok_exists self imp_time_depen h3
        obtain ⟨s', hs'⟩ := foldlM_step_ok disc_rates td self.imp_meas_future self (hf h2) hp
        have hval : calc_cost_benefit self disc_rates imp_time_depen
            = self.imp_meas_future.foldlM (cost_ben_step disc_rates td) self := by
          unfold calc_cost_benefit
          rw [if_neg h1, if_neg (by simp [h2]), htd]
        constructor
        · constructor
          · rintro ⟨err, herr⟩
            rw [hval, hs'] at herr
            cases herr
          · rintro (hc | hc | hc)
            · exact absurd hc h1
            · simp at hc
            · exact absurd hc h3
        · rintro (hc | hc | hc) d'
          · exact absurd hc h1
          · simp at hc
          · exact absurd hc h3

/-- Witness for C8: the invalid-year-range state errors (for any discount
rates), the degenerate one-year span with the negative exponent `-1` errors,
and the well-formed concrete state with a null exponent does not error. -/
theorem C8_witness :
    (∃ err, calc_cost_benefit cbC8bad discSum none = .error err) ∧
    (∃ err, calc_cost_benefit cbC7 discSum (some (-1)) = .error err) ∧
    ¬(∃ err, calc_cost_benefit cbC1 discSum none = .error err) := by
  have hbad := C8_calc_cost_benefit_guards cbC8bad discSum none
    (fun _ => by rw [show dlookup no_measure cbC8bad.imp_meas_future
      = some (mkEval 0 200 0 none) from rfl]; rfl)
    (fun h => nomatch h)
  have hdeg := C8_calc_cost_benefit_guards cbC7 discSum (some (-1))
    (fun _ => by rw [show dlookup no_measure cbC7.imp_meas_future
      = some (mkEval 0 200 0 none) from rfl]; rfl)
    (fun h => nomatch h)
  have hgood := C8_calc_cost_benefit_guards cbC1 discSum none
    (fun _ => by rw [show dlookup no_measure cbC1.imp_meas_future
      = some (mkEval 0 200 0 none) from rfl]; rfl)
    (fun h => nomatch h)
  refine ⟨hbad.1.mpr (Or.inl (by decide)),
    hdeg.1.mpr (Or.inr (Or.inr ⟨by rw [Option.getD_some]; norm_num, by decide⟩)),
    fun hex => ?_⟩
  rcases hgood.1.mp hex with h | h | h
  · exact absurd h (by decide)
  · exact absurd h (by decide)
  · simp at h

/-- C8 counterexample to the original claim: with
`present_year = future_year = 2020` the year range is valid
(`future_year - present_year + 1 = 1 > 0`) and the future evaluation mapping
is populated, so neither of the claim's two error conditions holds — yet
requesting the negative time-dependency exponent `-1` makes the computation
raise: `_time_dependency_array` evaluates the scalar `0 ** -1`, Python's
`ZeroDivisionError`, so the claimed "exactly when" is false of the code. -/
theorem C8_counterexample :
    ¬(cbC7.future_year - cbC7.present_year + 1 ≤ 0) ∧
    cbC7.imp_meas_future.isEmpty = false ∧
    calc_cost_benefit cbC7 discSum (some (-1)) = .error .zeroDivisionError := by
  refine ⟨by decide, rfl, ?_⟩
  unfold calc_cost_benefit
  rw [if_neg (by decide), if_neg (by decide),
    time_dependency_array_raise cbC7 (by rw [Option.getD_some]; norm_num) (by decide)]

/-- C7 (code evaluated at the failing input): with
`present_year = future_year = 2020` (`n_years = 1`) and a non-null exponent
`1` requested, the code does not reject the configuration: the
time-dependency construction returns normally (its raise fires only for
negative exponents), the interpolation weight is the division `0 / 0` (NaN
with a warning in numpy, the idealized real value `0` here), and
`_calc_cost_benefit` completes normally instead of raising a fatal validation
error. -/
theorem C7_degenerate_span_not_rejected :
    time_dependency_array cbC7 (some 1) = .ok [(0 : ℝ) / 0] ∧
    calc_cost_benefit cbC7 discSum (some 1) =
      .ok { cbC7 with tot_climate_risk := 0 } := by
  have htd : time_dependency_array cbC7 (some 1) = .ok [(0 : ℝ) / 0] := by
    rw [time_dependency_array_growth cbC7 (by norm_num)
      (by rintro ⟨h, -⟩; norm_num at h)]
    rw [show (cbC7.future_year - cbC7.present_year + 1).toNat = 1 from rfl]
    rw [show List.range 1 = [0] from rfl]
    rw [show ((cbC7.future_year - cbC7.present_year + 1 : ℤ) : ℝ) = 1 from by
      rw [show (cbC7.future_year - cbC7.present_year + 1 : ℤ) = 1 from rfl]
      norm_num]
    simp [Real.rpow_one]
  have hnpv : npv_unaverted_impact cbC7 (mkEval 0 200 0 none).risk discSum
      [(0 : ℝ) / 0] none = 0 := by
    rw [npv_unaverted_impact, if_neg (by simp)]
    simp [discSum]
  have hcb : calc_cost_benefit cbC7 discSum (some 1)
      = cbC7.imp_meas_future.foldlM
          (cost_ben_step discSum [(0 : ℝ) / 0]) cbC7 := by
    unfold calc_cost_benefit
    rw [if_neg (by decide), if_neg (by decide), htd]
  refine ⟨htd, ?_⟩
  rw [hcb,
    show cbC7.imp_meas_future = [(no_measure, mkEval 0 200 0 none)] from rfl,
    List.foldlM_cons,
    cost_ben_step_no_measure_no_present
      (show dlookup no_measure cbC7.imp_meas_future = some (mkEval 0 200 0 none) from rfl)
      rfl rfl, hnpv]
  rfl

/-- C4: `calc` resolves the effective future year as the explicit argument, or
`present_year + 1` when absent; with neither future hazard nor future entity
it evaluates only the future snapshot with the present inputs (the present
mapping is left untouched) and passes the caller's exponent through unchanged
(all-ones default); with a future hazard or entity it defaults the exponent to
`1` when unset, always evaluates a present snapshot with the present inputs,
and evaluates the future snapshot with both future inputs at the future
entity's reference year, or the future hazard with the present entity at the
resolved future year, or the present hazard with the future entity's
exposures/measures at the future entity's reference year. -/
theorem C4_calc_dispatch (self : CostBenefit) (eng : ImpactEngine) (hazard : Hazard)
    (entity : Entity) (fy : Option ℤ) (risk_func : Impact → ℝ) (itd : Option ℝ)
    (save_imp : Bool) :
    let s1 : CostBenefit := { self with
      present_year := entity.exposures.ref_year
      unit := entity.exposures.value_unit
      color_rgb := (entity.measures.get_measure hazard.tag.haz_type).foldl
        (fun d meas => dinsert meas.name meas.color_rgb d) self.color_rgb }
    let rfy : ℤ := fy.getD (entity.exposures.ref_year + 1)
    let pres : CostBenefit := calc_impact_measures s1 eng hazard entity.exposures
      entity.measures entity.impact_funcs present_label risk_func save_imp
    (calc' self eng hazard entity none none fy risk_func itd save_imp
      = calc_cost_benefit
          (calc_impact_measures { s1 with future_year := rfy } eng hazard entity.exposures
            entity.measures entity.impact_funcs future_label risk_func save_imp)
          entity.disc_rates itd) ∧
    (∀ r, calc' self eng hazard entity none none fy risk_func itd save_imp = .ok r →
      r.future_year = rfy ∧ r.imp_meas_present = self.imp_meas_present) ∧
    (∀ hf ef,
      calc' self eng hazard entity (some hf) (some ef) fy risk_func itd save_imp
        = calc_cost_benefit
            (calc_impact_measures { pres with future_year := ef.exposures.ref_year } eng hf
              ef.exposures ef.measures ef.impact_funcs future_label risk_func save_imp)
            entity.disc_rates (some (itd.getD 1))) ∧
    (∀ hf ef r,
      calc' self eng hazard entity (some hf) (some ef) fy risk_func itd save_imp = .ok r →
      r.future_year = ef.exposures.ref_year ∧
      r.imp_meas_present = pres.imp_meas_present) ∧
    (∀ hf,
      calc' self eng hazard entity (some hf) none fy risk_func itd save_imp
        = calc_cost_benefit
            (calc_impact_measures { pres with future_year := rfy } eng hf entity.exposures
              entity.measures entity.impact_funcs future_label risk_func save_imp)
            entity.disc_rates (some (itd.getD 1))) ∧
    (∀ hf r,
      calc' self eng hazard entity (some hf) none fy risk_func itd save_imp = .ok r →
      r.future_year = rfy ∧ r.imp_meas_present = pres.imp_meas_present) ∧
    (∀ ef,
      calc' self eng hazard entity none (some ef) fy risk_func itd save_imp
        = calc_cost_benefit
            (calc_impact_measures { pres with future_year := ef.exposures.ref_year } eng
              hazard ef.exposures ef.measures ef.impact_funcs future_label risk_func save_imp)
            entity.disc_rates (some (itd.getD 1))) ∧
    (∀ ef r,
      calc' self eng hazard entity none (some ef) fy risk_func itd save_imp = .ok r →
      r.future_year = ef.exposures.ref_year ∧
      r.imp_meas_present = pres.imp_meas_present) := by
  intro s1 rfy pres
  refine ⟨rfl, ?_, fun hf ef => rfl, ?_, fun hf => rfl, ?_, fun ef => rfl, ?_⟩
  · intro r h
    have h' : calc_cost_benefit
        (calc_impact_measures { s1 with future_year := rfy } eng hazard entity.exposures
          entity.measures entity.impact_funcs future_label risk_func save_imp)
        entity.disc_rates itd = .ok r := h
    obtain ⟨_, h2, _, _, _, h6⟩ := calc_cost_benefit_frame h'
    obtain ⟨p1, _, p3⟩ := calc_impact_measures_future { s1 with future_year := rfy } eng
      hazard entity.exposures entity.measures entity.impact_funcs risk_func save_imp
    exact ⟨h2.trans p3, h6.trans p1⟩
  · intro hf ef r h
    have h' : calc_cost_benefit
        (calc_impact_measures { pres with future_year := ef.exposures.ref_year } eng hf
          ef.exposures ef.measures ef.impact_funcs future_label risk_func save_imp)
        entity.disc_rates (some (itd.getD 1)) = .ok r := h
    obtain ⟨_, h2, _, _, _, h6⟩ := calc_cost_benefit_frame h'
    obtain ⟨p1, _, p3⟩ := calc_impact_measures_future
      { pres with future_year := ef.exposures.ref_year } eng hf ef.exposures ef.measures
      ef.impact_funcs risk_func save_imp
    exact ⟨h2.trans p3, h6.trans p1⟩
  · intro hf r h
    have h' : calc_cost_benefit
        (calc_impact_measures { pres with future_year := rfy } eng hf entity.exposures
          entity.measures entity.impact_funcs future_label risk_func save_imp)
        entity.disc_rates (some (itd.getD 1)) = .ok r := h
    obtain ⟨_, h2, _, _, _, h6⟩ := calc_cost_benefit_frame h'
    obtain ⟨p1, _, p3⟩ := calc_impact_measures_future { pres with future_year := rfy } eng hf
      entity.exposures entity.measures entity.impact_funcs risk_func save_imp
    exact ⟨h2.trans p3, h6.trans p1⟩
  · intro ef r h
    have h' : calc_cost_benefit
        (calc_impact_measures { pres with future_year := ef.exposures.ref_year } eng hazard
          ef.exposures ef.measures ef.impact_funcs future_label risk_func save_imp)
        entity.disc_rates (some (itd.getD 1)) = .ok r := h
    obtain ⟨_, h2, _, _, _, h6⟩ := calc_cost_benefit_frame h'
    obtain ⟨p1, _, p3⟩ := calc_impact_measures_future
      { pres with future_year := ef.exposures.ref_year } eng hazard ef.exposures ef.measures
      ef.impact_funcs risk_func save_imp
    exact ⟨h2.trans p3, h6.trans p1⟩

/-- Witness for C4: running `calc` on the concrete present-day entity with no
future inputs and no explicit future year succeeds, resolves the future year
to `present_year + 1 = 2021`, and computes no present snapshot. -/
theorem C4_witness :
    ∃ r, calc' CostBenefit.init engFix hazFix entFix none none none risk_aai_agg none false
        = .ok r ∧ r.future_year = 2021 ∧ r.imp_meas_present = [] := by
  obtain ⟨heq, himp, _⟩ :=
    C4_calc_dispatch CostBenefit.init engFix hazFix entFix none risk_aai_agg none false
  obtain ⟨s', hs'⟩ := foldlM_step_ok
    entFix.disc_rates
    (List.replicate 2 1)
    (calc_impact_measures
      { { CostBenefit.init with
          present_year := entFix.exposures.ref_year
          unit := entFix.exposures.value_unit
          color_rgb := (entFix.measures.get_measure hazFix.tag.haz_type).foldl
            (fun d (meas : Measure) => dinsert meas.name meas.color_rgb d)
            CostBenefit.init.color_rgb }
        with future_year := (none : Option ℤ).getD (entFix.exposures.ref_year + 1) }
      engFix hazFix entFix.exposures entFix.measures entFix.impact_funcs future_label
      risk_aai_agg false).imp_meas_future
    (calc_impact_measures
      { { CostBenefit.init with
          present_year := entFix.exposures.ref_year
          unit := entFix.exposures.value_unit
          color_rgb := (entFix.measures.get_measure hazFix.tag.haz_type).foldl
            (fun d (meas : Measure) => dinsert meas.name meas.color_rgb d)
            CostBenefit.init.color_rgb }
        with future_year := (none : Option ℤ).getD (entFix.exposures.ref_year + 1) }
      engFix hazFix entFix.exposures entFix.measures entFix.impact_funcs future_label
      risk_aai_agg false)
    (by rfl)
    (fun h => absurd h (by decide))
  have hok : calc' CostBenefit.init engFix hazFix entFix none none none risk_aai_agg none false
      = .ok s' := by
    rw [heq]
    unfold calc_cost_benefit
    rw [if_neg (by decide), if_neg (by decide), time_dependency_array_none]
    exact hs'
  obtain ⟨hy, hp⟩ := himp s' hok
  exact ⟨s', hok, hy, hp⟩

/-- C2: for a list of measure names whose evaluations retain a saved impact,
`_combine_imp_meas` computes the per-event summed averted damage (baseline
loss minus each named measure's loss, summed over the names), floors the
combined per-event loss at zero; with a risk-transfer layer
`(attachment, cover)` the transferred loss per event is
`min(max(combined - attachment, 0), cover)`, subtracted from the combined loss
(floored at zero again) with its frequency-weighted sum recorded as the
risk-transfer value; the new entry's risk is `risk_func` of the new combined
impact, its frequency curve is recomputed from the new per-event
loss/frequency pairs, and its cost is the sum of the constituent costs. -/
theorem C2_combine_imp_meas_correct {imp_dict : List (String × MeasEval)}
    {base : MeasEval} {base_imp : Impact} {in_meas : List MeasEval}
    {in_imps : List Impact} {first_imp : Impact} {rest : List Impact}
    {in_meas_names : List String}
    (eng : ImpactEngine) (new_name : String) (att cov : ℝ) (risk_func : Impact → ℝ)
    (h1 : dlookup no_measure imp_dict = some base)
    (h2 : base.impact = some base_imp)
    (h3 : in_meas_names.mapM (fun name => dlookup name imp_dict) = some in_meas)
    (h4 : in_meas.mapM (fun m => m.impact) = some in_imps)
    (h5 : in_imps = first_imp :: rest)
    (hLi : ∀ imp ∈ in_imps, imp.at_event.length = base_imp.at_event.length)
    (hLf : first_imp.frequency.length = base_imp.at_event.length) :
    ∃ d' nm nimp,
      combine_imp_meas imp_dict eng in_meas_names new_name (att, cov) risk_func = .ok d' ∧
      dlookup new_name d' = some nm ∧
      nm.impact = some nimp ∧
      nimp.frequency = first_imp.frequency ∧
      nimp.at_event.length = base_imp.at_event.length ∧
      nm.risk = risk_func nimp ∧
      nm.efc = eng.calc_freq_curve nimp.at_event nimp.frequency ∧
      nm.cost = (in_meas.map MeasEval.cost).sum ∧
      (∀ i, (combined_at0 base_imp in_imps).getD i 0 =
        max (base_imp.at_event.getD i 0 -
          (in_imps.map (fun imp =>
            base_imp.at_event.getD i 0 - imp.at_event.getD i 0)).sum) 0) ∧
      (((att, cov) : ℝ × ℝ) = ((0 : ℝ), (0 : ℝ)) →
        (∀ i, nimp.at_event.getD i 0 = (combined_at0 base_imp in_imps).getD i 0) ∧
        nm.risk_transf = 0) ∧
      (((att, cov) : ℝ × ℝ) ≠ ((0 : ℝ), (0 : ℝ)) →
        (∀ i, i < base_imp.at_event.length →
          nimp.at_event.getD i 0 =
            max ((combined_at0 base_imp in_imps).getD i 0 -
              min (max ((combined_at0 base_imp in_imps).getD i 0 - att) 0) cov) 0) ∧
        nm.risk_transf = ((List.range base_imp.at_event.length).map (fun i =>
          min (max ((combined_at0 base_imp in_imps).getD i 0 - att) 0) cov *
            first_imp.frequency.getD i 0)).sum) := by
  by_cases hrt : ((att, cov) : ℝ × ℝ) = ((0 : ℝ), (0 : ℝ))
  · have hok := combine_imp_meas_ok_nolayer eng new_name risk_func h1 h2 h3 h4 h5
    rw [hrt]
    exact ⟨_, _, _, hok, dlookup_dinsert_self _ _ _, rfl, rfl, combined_at0_length hLi,
      rfl, rfl, rfl, fun i => combined_at0_getD hLi i,
      fun _ => ⟨fun i => rfl, rfl⟩, fun hne => absurd rfl hne⟩
  · have hlay := combine_imp_meas_ok_layer eng new_name att cov risk_func hrt h1 h2 h3 h4 h5
    have hat0len := combined_at0_length hLi
    have hlaylen := layer_vec_length att cov (combined_at0 base_imp in_imps)
    refine ⟨_, _, _, hlay, dlookup_dinsert_self _ _ _, rfl, rfl, ?_, rfl, rfl, rfl,
      fun i => combined_at0_getD hLi i, fun heq => absurd heq hrt, fun _ => ⟨?_, ?_⟩⟩
    · show (vmax0 (vsub (combined_at0 base_imp in_imps)
        (layer_vec att cov (combined_at0 base_imp in_imps)))).length
        = base_imp.at_event.length
      rw [vmax0_length, vsub_length (by rw [hlaylen]), hat0len]
    · intro i hi
      show (vmax0 (vsub (combined_at0 base_imp in_imps)
        (layer_vec att cov (combined_at0 base_imp in_imps)))).getD i 0 = _
      rw [vmax0_getD, vsub_getD (by rw [hlaylen]), layer_vec_getD (by rw [hat0len]; exact hi)]
    · show (vmul (layer_vec att cov (combined_at0 base_imp in_imps))
        first_imp.frequency).sum = _
      rw [vmul_sum_range (by rw [hlaylen, hat0len, hLf]), hlaylen, hat0len]
      exact congrArg _ (List.map_congr_left (fun i hi => by
        rw [layer_vec_getD (by rw [hat0len]; exact List.mem_range.mp hi)]))

/-- Witness for C2: combining measures `a` and `b` on the concrete dictionary
with risk-transfer layer `(attachment 1, cover 2)` gives combined per-event
losses `[3, 1]`, transferred value `3`, and summed cost `30`. -/
theorem C2_witness :
    ∃ d' nm nimp,
      combine_imp_meas cbDictC2 engFix ["a", "b"] "comb" ((1 : ℝ), (2 : ℝ)) risk_aai_agg
        = .ok d' ∧
      dlookup "comb" d' = some nm ∧
      nm.impact = some nimp ∧
      nimp.at_event.getD 0 0 = 3 ∧
      nimp.at_event.getD 1 0 = 1 ∧
      nm.risk_transf = 3 ∧
      nm.cost = 30 := by
  have hLi : ∀ imp ∈ [impA, impBm], imp.at_event.length = impB.at_event.length := by
    intro imp hmem
    rcases List.mem_cons.mp hmem with rfl | hmem2
    · rfl
    · rcases List.mem_cons.mp hmem2 with rfl | hmem3
      · rfl
      · cases hmem3
  obtain ⟨d', nm, nimp, hok, hlk, himp, _, _, _, _, hcost, hat0, _, hlayer⟩ :=
    C2_combine_imp_meas_correct engFix "comb" 1 2 risk_aai_agg
      (show dlookup no_measure cbDictC2 = some (mkEval 0 16 0 (some impB)) from rfl)
      rfl
      (show ["a", "b"].mapM (fun name => dlookup name cbDictC2)
        = some [mkEval 10 12 0 (some impA), mkEval 20 11 0 (some impBm)] from rfl)
      (show [mkEval 10 12 0 (some impA), mkEval 20 11 0 (some impBm)].mapM
        (fun m => m.impact) = some [impA, impBm] from rfl)
      rfl hLi rfl
  obtain ⟨hev, hrt⟩ := hlayer (by simp)
  have h0 : (combined_at0 impB [impA, impBm]).getD 0 0 = 5 := by
    rw [hat0 0]
    norm_num [impB, impA, impBm, mkImp, max_def]
  have h1 : (combined_at0 impB [impA, impBm]).getD 1 0 = 2 := by
    rw [hat0 1]
    norm_num [impB, impA, impBm, mkImp, max_def]
  refine ⟨d', nm, nimp, hok, hlk, himp, ?_, ?_, ?_, ?_⟩
  · rw [hev 0 (by norm_num [impB, mkImp]), h0]
    norm_num [max_def, min_def]
  · rw [hev 1 (by norm_num [impB, mkImp]), h1]
    norm_num [max_def, min_def]
  · rw [hrt, show impB.at_event.length = 2 from rfl,
      show List.range 2 = [0, 1] from rfl]
    rw [List.map_cons, List.map_cons, List.map_nil, List.sum_cons, List.sum_cons,
      List.sum_nil, h0, h1]
    norm_num [impA, mkImp, max_def, min_def]
  · rw [hcost]
    norm_num [mkEval]

/-- C10: `combine_measures` only appends: after a successful combination every
pre-existing entry of the present and future evaluation mappings and of the
benefit, ratio and color mappings is unchanged (entries keyed by the new name
are added), and the combined entry's impact is a fresh value built from its
template (frequency, unit and total value copied from the first constituent's
retained impact), so in this pure-value model no constituent's retained
impact is mutated or aliased.  The hypothesis `hnd` excludes exactly the
degenerate one-year span with a negative requested exponent, where the
time-dependency construction raises `ZeroDivisionError` instead of letting
the combination complete. -/
theorem C10_combine_measures_frame {cb : CostBenefit} {fb : MeasEval} {fbi : Impact}
    {fmevs : List MeasEval} {fimps : List Impact} {ffirst : Impact} {frest : List Impact}
    (eng : ImpactEngine) (in_meas_names : List String) (new_name : String)
    (new_color : List ℝ) (disc_rates : DiscRates) (rt : ℝ × ℝ) (itd : Option ℝ)
    (risk_func : Impact → ℝ)
    (hnm : new_name ≠ no_measure)
    (hnd : ¬(itd.getD 0 < 0 ∧ cb.future_year - cb.present_year + 1 = 1))
    (h1f : dlookup no_measure cb.imp_meas_future = some fb)
    (h2f : fb.impact = some fbi)
    (h3f : in_meas_names.mapM (fun name => dlookup name cb.imp_meas_future) = some fmevs)
    (h4f : fmevs.mapM (fun m => m.impact) = some fimps)
    (h5f : fimps = ffirst :: frest) :
    (cb.imp_meas_present.isEmpty = true →
      ∃ r, combine_measures cb eng in_meas_names new_name new_color disc_rates rt itd
          risk_func = .ok r ∧
        r.imp_meas_present = cb.imp_meas_present ∧
        (∀ k, k ≠ new_name → dlookup k r.imp_meas_future = dlookup k cb.imp_meas_future) ∧
        (∀ k, k ≠ new_name → dlookup k r.benefit = dlookup k cb.benefit) ∧
        (∀ k, k ≠ new_name → dlookup k r.cost_ben_ratio = dlookup k cb.cost_ben_ratio) ∧
        (∀ k, k ≠ new_name → dlookup k r.color_rgb = dlookup k cb.color_rgb) ∧
        dlookup new_name r.color_rgb = some new_color ∧
        (dlookup new_name r.benefit).isSome ∧
        (dlookup new_name r.cost_ben_ratio).isSome ∧
        (∃ nm nimp, dlookup new_name r.imp_meas_future = some nm ∧
          nm.impact = some nimp ∧ nimp.frequency = ffirst.frequency ∧
          nimp.eai_exp = [] ∧ nimp.unit = ffirst.unit ∧
          nimp.tot_value = ffirst.tot_value)) ∧
    (∀ pb pmevs pimps : _, ∀ pfirst : Impact, ∀ prest : List Impact, ∀ pbi : Impact,
      cb.imp_meas_present.isEmpty = false →
      dlookup no_measure cb.imp_meas_present = some pb →
      pb.impact = some pbi →
      in_meas_names.mapM (fun name => dlookup name cb.imp_meas_present) = some pmevs →
      pmevs.mapM (fun m => m.impact) = some pimps →
      pimps = pfirst :: prest →
      ∃ r, combine_measures cb eng in_meas_names new_name new_color disc_rates rt itd
          risk_func = .ok r ∧
        (∀ k, k ≠ new_name → dlookup k r.imp_meas_future = dlookup k cb.imp_meas_future) ∧
        (∀ k, k ≠ new_name → dlookup k r.imp_meas_present = dlookup k cb.imp_meas_present) ∧
        (∀ k, k ≠ new_name → dlookup k r.benefit = dlookup k cb.benefit) ∧
        (∀ k, k ≠ new_name → dlookup k r.cost_ben_ratio = dlookup k cb.cost_ben_ratio) ∧
        (∀ k, k ≠ new_name → dlookup k r.color_rgb = dlookup k cb.color_rgb) ∧
        dlookup new_name r.color_rgb = some new_color ∧
        (dlookup new_name r.imp_meas_present).isSome ∧
        (dlookup new_name r.benefit).isSome ∧
        (dlookup new_name r.cost_ben_ratio).isSome ∧
        (∃ nm nimp, dlookup new_name r.imp_meas_future = some nm ∧
          nm.impact = some nimp ∧ nimp.frequency = ffirst.frequency ∧
          nimp.eai_exp = [] ∧ nimp.unit = ffirst.unit ∧
          nimp.tot_value = ffirst.tot_value)) := by
  have hne' : no_measure ≠ new_name := fun h => hnm h.symm
  obtain ⟨vf, hvf, nimpf, hni, hfr, hee, hun, htv⟩ :=
    combine_imp_meas_shape eng new_name rt risk_func h1f h2f h3f h4f h5f
  constructor
  · intro hpe
    have hfb' : dlookup no_measure (dinsert new_name vf cb.imp_meas_future) = some fb := by
      rw [dlookup_dinsert_ne hne']
      exact h1f
    obtain ⟨tdA, htdA⟩ := time_dependency_array_ok_exists
      { cb with color_rgb := dinsert new_name new_color cb.color_rgb
                imp_meas_future := dinsert new_name vf cb.imp_meas_future } itd hnd
    have hco := @cost_ben_one_no_present
      { cb with color_rgb := dinsert new_name new_color cb.color_rgb
                imp_meas_future := dinsert new_name vf cb.imp_meas_future }
      fb hfb' hpe new_name vf disc_rates tdA
    have hrun : combine_measures cb eng in_meas_names new_name new_color disc_rates rt itd
        risk_func = cost_ben_one
          { cb with color_rgb := dinsert new_name new_color cb.color_rgb
                    imp_meas_future := dinsert new_name vf cb.imp_meas_future }
          new_name vf disc_rates tdA := by
      unfold combine_measures
      simp only [hvf, hpe, dlookup_dinsert_self, if_true, htdA]
    refine ⟨_, hrun.trans hco, rfl, ?_, ?_, ?_, ?_, ?_, ?_, ?_, ?_⟩
    · intro k hk
      exact dlookup_dinsert_ne hk vf cb.imp_meas_future
    · intro k hk
      exact dlookup_dinsert_ne hk _ cb.benefit
    · intro k hk
      exact dlookup_dinsert_ne hk _ cb.cost_ben_ratio
    · intro k hk
      exact dlookup_dinsert_ne hk new_color cb.color_rgb
    · exact dlookup_dinsert_self _ _ _
    · rw [dlookup_dinsert_self]
      rfl
    · rw [dlookup_dinsert_self]
      rfl
    · exact ⟨vf, nimpf, dlookup_dinsert_self _ _ _, hni, hfr, hee, hun, htv⟩
  · intro pb pmevs pimps pfirst prest pbi hpe hp1 hp2 hp3 hp4 hp5
    obtain ⟨vp, hvp, nimpp, _⟩ :=
      combine_imp_meas_shape eng new_name rt risk_func hp1 hp2 hp3 hp4 hp5
    have hfb' : dlookup no_measure (dinsert new_name vf cb.imp_meas_future) = some fb := by
      rw [dlookup_dinsert_ne hne']
      exact h1f
    have hpb' : dlookup no_measure (dinsert new_name vp cb.imp_meas_present) = some pb := by
      rw [dlookup_dinsert_ne hne']
      exact hp1
    have hpe' : (dinsert new_name vp cb.imp_meas_present).isEmpty = false := by
      cases hd : dinsert new_name vp cb.imp_meas_present with
      | nil =>
        rw [hd] at hpb'
        cases hpb'
      | cons x xs => rfl
    have hnd' : ¬((some (itd.getD 1) : Option ℝ).getD 0 < 0 ∧
        cb.future_year - cb.present_year + 1 = 1) := by
      cases itd with
      | none =>
        rintro ⟨h, -⟩
        rw [Option.getD_some, Option.getD_none] at h
        exact absurd h (by norm_num)
      | some e =>
        intro hh
        exact hnd (by simpa using hh)
    obtain ⟨tdB, htdB⟩ := time_dependency_array_ok_exists
      { cb with color_rgb := dinsert new_name new_color cb.color_rgb
                imp_meas_future := dinsert new_name vf cb.imp_meas_future
                imp_meas_present := dinsert new_name vp cb.imp_meas_present }
      (some (itd.getD 1)) hnd'
    have hco := @cost_ben_one_with_present
      { cb with color_rgb := dinsert new_name new_color cb.color_rgb
                imp_meas_future := dinsert new_name vf cb.imp_meas_future
                imp_meas_present := dinsert new_name vp cb.imp_meas_present }
      fb pb vp new_name vf disc_rates tdB
      hfb' hpe' hpb' (dlookup_dinsert_self _ _ _)
    have hrun : combine_measures cb eng in_meas_names new_name new_color disc_rates rt itd
        risk_func = cost_ben_one
          { cb with color_rgb := dinsert new_name new_color cb.color_rgb
                    imp_meas_future := dinsert new_name vf cb.imp_meas_future
                    imp_meas_present := dinsert new_name vp cb.imp_meas_present }
          new_name vf disc_rates tdB := by
      unfold combine_measures
      simp only [hvf, hvp, hpe, dlookup_dinsert_self, if_false, Bool.false_eq_true, htdB]
    refine ⟨_, hrun.trans hco, ?_, ?_, ?_, ?_, ?_, ?_, ?_, ?_, ?_, ?_⟩
    · intro k hk
      exact dlookup_dinsert_ne hk vf cb.imp_meas_future
    · intro k hk
      exact dlookup_dinsert_ne hk vp cb.imp_meas_present
    · intro k hk
      exact dlookup_dinsert_ne hk _ cb.benefit
    · intro k hk
      exact dlookup_dinsert_ne hk _ cb.cost_ben_ratio
    · intro k hk
      exact dlookup_dinsert_ne hk new_color cb.color_rgb
    · exact dlookup_dinsert_self _ _ _
    · rw [dlookup_dinsert_self]
      rfl
    · rw [dlookup_dinsert_self]
      rfl
    · rw [dlookup_dinsert_self]
      rfl
    · exact ⟨vf, nimpf, dlookup_dinsert_self _ _ _, hni, hfr, hee, hun, htv⟩

/-- Witness for C10: combining `a` and `b` into `comb2` on the concrete state
succeeds, leaves the pre-existing entries for `a` untouched, and adds the new
color/benefit entries keyed by `comb2`. -/
theorem C10_witness :
    ∃ r, combine_measures cbC10 engFix ["a", "b"] "comb2" [0, 1, 0] discSum
        ((0 : ℝ), (0 : ℝ)) none risk_aai_agg = .ok r ∧
      dlookup "a" r.benefit = some 7 ∧
      dlookup "a" r.imp_meas_future = dlookup "a" cbC10.imp_meas_future ∧
      dlookup "comb2" r.color_rgb = some [0, 1, 0] ∧
      (dlookup "comb2" r.benefit).isSome := by
  obtain ⟨hA, _⟩ := C10_combine_measures_frame engFix ["a", "b"] "comb2" [0, 1, 0] discSum
    ((0 : ℝ), (0 : ℝ)) none risk_aai_agg (by decide)
    (by rintro ⟨h, -⟩; simp at h)
    (show dlookup no_measure cbC10.imp_meas_future = some (mkEval 0 16 0 (some impB)) from rfl)
    rfl
    (show ["a", "b"].mapM (fun name => dlookup name cbC10.imp_meas_future)
      = some [mkEval 10 12 0 (some impA), mkEval 20 11 0 (some impBm)] from rfl)
    (show [mkEval 10 12 0 (some impA), mkEval 20 11 0 (some impBm)].mapM
      (fun m => m.impact) = some [impA, impBm] from rfl)
    rfl
  obtain ⟨r, hok, _, hfut, hben, _, _, hcol, hbs, _, _⟩ := hA rfl
  refine ⟨r, hok, ?_, hfut "a" (by decide), hcol, hbs⟩
  rw [hben "a" (by decide)]
  rfl

/-- C9: measure combination is associative in damage summation: with retained
impacts for measures `a`, `b`, `c`, no risk-transfer layer, and the
floor-at-zero never triggered (every per-event summed averted damage at or
below the baseline loss), combining `{a, b}` into a new measure and then
combining that result with `c` produces the same combined per-event loss
vector, the same risk and the same cost as combining `{a, b, c}` directly. -/
theorem C9_combine_associative {d : List (String × MeasEval)}
    {base mA mB mC : MeasEval} {bimp iA iB iC : Impact}
    (eng : ImpactEngine) (risk_func : Impact → ℝ) (a b c ab x : String)
    (hbase : dlookup no_measure d = some base) (hbimp : base.impact = some bimp)
    (hA : dlookup a d = some mA) (hiA : mA.impact = some iA)
    (hB : dlookup b d = some mB) (hiB : mB.impact = some iB)
    (hC : dlookup c d = some mC) (hiC : mC.impact = some iC)
    (hnm_ab : no_measure ≠ ab) (hc_ab : c ≠ ab)
    (hLA : iA.at_event.length = bimp.at_event.length)
    (hLB : iB.at_event.length = bimp.at_event.length)
    (hLC : iC.at_event.length = bimp.at_event.length)
    (hAB : ∀ i, (bimp.at_event.getD i 0 - iA.at_event.getD i 0)
      + (bimp.at_event.getD i 0 - iB.at_event.getD i 0) ≤ bimp.at_event.getD i 0)
    (hABC : ∀ i, (bimp.at_event.getD i 0 - iA.at_event.getD i 0)
      + (bimp.at_event.getD i 0 - iB.at_event.getD i 0)
      + (bimp.at_event.getD i 0 - iC.at_event.getD i 0) ≤ bimp.at_event.getD i 0) :
    let IAB : Impact := { iA with
      at_event := combined_at0 bimp [iA, iB]
      eai_exp := []
      aai_agg := (vmul (combined_at0 bimp [iA, iB]) iA.frequency).sum }
    let MAB : MeasEval :=
      { cost := ([mA, mB].map MeasEval.cost).sum
        risk := risk_func IAB
        risk_transf := 0
        efc := eng.calc_freq_curve (combined_at0 bimp [iA, iB]) iA.frequency
        impact := some IAB }
    combine_imp_meas d eng [a, b] ab ((0 : ℝ), (0 : ℝ)) risk_func
      = .ok (dinsert ab MAB d) ∧
    ∃ d2 d3 m2 m3 i2 i3,
      combine_imp_meas (dinsert ab MAB d) eng [ab, c] x ((0 : ℝ), (0 : ℝ)) risk_func
        = .ok d2 ∧
      combine_imp_meas d eng [a, b, c] x ((0 : ℝ), (0 : ℝ)) risk_func = .ok d3 ∧
      dlookup x d2 = some m2 ∧ dlookup x d3 = some m3 ∧
      m2.impact = some i2 ∧ m3.impact = some i3 ∧
      i2.at_event = i3.at_event ∧ i2 = i3 ∧
      m2.risk = m3.risk ∧ m2.cost = m3.cost := by
  intro IAB MAB
  have h3ab : [a, b].mapM (fun n => dlookup n d) = some [mA, mB] := by
    simp only [List.mapM_cons, List.mapM_nil, hA, hB]
    rfl
  have h4ab : [mA, mB].mapM (fun m => m.impact) = some [iA, iB] := by
    simp only [List.mapM_cons, List.mapM_nil, hiA, hiB]
    rfl
  have hLiAB : ∀ imp ∈ [iA, iB], imp.at_event.length = bimp.at_event.length := by
    intro imp hmem
    rcases List.mem_cons.mp hmem with rfl | hm2
    · exact hLA
    rcases List.mem_cons.mp hm2 with rfl | hm3
    · exact hLB
    · cases hm3
  have hs1 : combine_imp_meas d eng [a, b] ab ((0 : ℝ), (0 : ℝ)) risk_func
      = .ok (dinsert ab MAB d) :=
    combine_imp_meas_ok_nolayer eng ab risk_func hbase hbimp h3ab h4ab rfl
  refine ⟨hs1, ?_⟩
  have hbase1 : dlookup no_measure (dinsert ab MAB d) = some base := by
    rw [dlookup_dinsert_ne hnm_ab]
    exact hbase
  have h3s2 : [ab, c].mapM (fun n => dlookup n (dinsert ab MAB d)) = some [MAB, mC] := by
    simp only [List.mapM_cons, List.mapM_nil, dlookup_dinsert_self,
      dlookup_dinsert_ne hc_ab, hC]
    rfl
  have h4s2 : [MAB, mC].mapM (fun m => m.impact) = some [IAB, iC] := by
    simp only [List.mapM_cons, List.mapM_nil, hiC]
    rfl
  have hs2 := combine_imp_meas_ok_nolayer eng x risk_func hbase1 hbimp h3s2 h4s2 rfl
  have h3s3 : [a, b, c].mapM (fun n => dlookup n d) = some [mA, mB, mC] := by
    simp only [List.mapM_cons, List.mapM_nil, hA, hB, hC]
    rfl
  have h4s3 : [mA, mB, mC].mapM (fun m => m.impact) = some [iA, iB, iC] := by
    simp only [List.mapM_cons, List.mapM_nil, hiA, hiB, hiC]
    rfl
  have hs3 := combine_imp_meas_ok_nolayer eng x risk_func hbase hbimp h3s3 h4s3 rfl
  have hLiX : ∀ imp ∈ [IAB, iC], imp.at_event.length = bimp.at_event.length := by
    intro imp hmem
    rcases List.mem_cons.mp hmem with rfl | hm2
    · show (combined_at0 bimp [iA, iB]).length = bimp.at_event.length
      exact combined_at0_length hLiAB
    rcases List.mem_cons.mp hm2 with rfl | hm3
    · exact hLC
    · cases hm3
  have hLiABC : ∀ imp ∈ [iA, iB, iC], imp.at_event.length = bimp.at_event.length := by
    intro imp hmem
    rcases List.mem_cons.mp hmem with rfl | hm2
    · exact hLA
    rcases List.mem_cons.mp hm2 with rfl | hm3
    · exact hLB
    rcases List.mem_cons.mp hm3 with rfl | hm4
    · exact hLC
    · cases hm4
  have hIABg : ∀ i, IAB.at_event.getD i 0
      = bimp.at_event.getD i 0 - ((bimp.at_event.getD i 0 - iA.at_event.getD i 0)
        + ((bimp.at_event.getD i 0 - iB.at_event.getD i 0) + 0)) := by
    intro i
    show (combined_at0 bimp [iA, iB]).getD i 0 = _
    rw [combined_at0_getD hLiAB i]
    simp only [List.map_cons, List.map_nil, List.sum_cons, List.sum_nil]
    exact max_eq_left (by linarith [hAB i])
  have hAT : combined_at0 bimp [IAB, iC] = combined_at0 bimp [iA, iB, iC] := by
    refine list_ext_getD ?_ ?_
    · rw [combined_at0_length hLiX, combined_at0_length hLiABC]
    · intro i
      rw [combined_at0_getD hLiX i, combined_at0_getD hLiABC i]
      simp only [List.map_cons, List.map_nil, List.sum_cons, List.sum_nil, hIABg i]
      congr 1
      ring
  have hI23 : ({ IAB with
      at_event := combined_at0 bimp [IAB, iC]
      eai_exp := []
      aai_agg := (vmul (combined_at0 bimp [IAB, iC]) IAB.frequency).sum } : Impact)
      = { iA with
          at_event := combined_at0 bimp [iA, iB, iC]
          eai_exp := []
          aai_agg := (vmul (combined_at0 bimp [iA, iB, iC]) iA.frequency).sum } := by
    rw [hAT]
  have hMABc : MAB.cost = mA.cost + (mB.cost + 0) := by
    show ([mA, mB].map MeasEval.cost).sum = _
    simp only [List.map_cons, List.map_nil, List.sum_cons, List.sum_nil]
  refine ⟨_, _, _, _, _, _, hs2, hs3, dlookup_dinsert_self _ _ _,
    dlookup_dinsert_self _ _ _, rfl, rfl, congrArg Impact.at_event hI23, hI23,
    congrArg risk_func hI23, ?_⟩
  show ([MAB, mC].map MeasEval.cost).sum = ([mA, mB, mC].map MeasEval.cost).sum
  simp only [List.map_cons, List.map_nil, List.sum_cons, List.sum_nil, hMABc]
  ring

/-- Witness for C9: on the concrete dictionary (averted damages `[3,1]`,
`[2,3]`, `[1,1]`, all sums below the baseline `[10,6]`), combining `{a, b}`
into `ab` and then `{ab, c}` into `x` matches combining `{a, b, c}` into `x`
directly: same per-event losses, risk and cost. -/
theorem C9_witness :
    ∃ d1 d2 d3 m2 m3 i2 i3,
      combine_imp_meas cbDictC2 engFix ["a", "b"] "ab" ((0 : ℝ), (0 : ℝ)) risk_aai_agg
        = .ok d1 ∧
      combine_imp_meas d1 engFix ["ab", "c"] "x" ((0 : ℝ), (0 : ℝ)) risk_aai_agg
        = .ok d2 ∧
      combine_imp_meas cbDictC2 engFix ["a", "b", "c"] "x" ((0 : ℝ), (0 : ℝ)) risk_aai_agg
        = .ok d3 ∧
      dlookup "x" d2 = some m2 ∧ dlookup "x" d3 = some m3 ∧
      m2.impact = some i2 ∧ m3.impact = some i3 ∧
      i2.at_event = i3.at_event ∧ m2.risk = m3.risk ∧ m2.cost = m3.cost := by
  have hAB : ∀ i, (impB.at_event.getD i 0 - impA.at_event.getD i 0)
      + (impB.at_event.getD i 0 - impBm.at_event.getD i 0) ≤ impB.at_event.getD i 0 := by
    intro i
    match i with
    | 0 => norm_num [impB, impA, impBm, mkImp]
    | 1 => norm_num [impB, impA, impBm, mkImp]
    | (n + 2) => simp [impB, impA, impBm, mkImp]
  have hABC : ∀ i, (impB.at_event.getD i 0 - impA.at_event.getD i 0)
      + (impB.at_event.getD i 0 - impBm.at_event.getD i 0)
      + (impB.at_event.getD i 0 - impCm.at_event.getD i 0) ≤ impB.at_event.getD i 0 := by
    intro i
    match i with
    | 0 => norm_num [impB, impA, impBm, impCm, mkImp]
    | 1 => norm_num [impB, impA, impBm, impCm, mkImp]
    | (n + 2) => simp [impB, impA, impBm, impCm, mkImp]
  obtain ⟨hs1, d2, d3, m2, m3, i2, i3, hs2, hs3, hl2, hl3, hi2, hi3, hat, _, hrk, hco⟩ :=
    C9_combine_associative engFix risk_aai_agg "a" "b" "c" "ab" "x"
      (show dlookup no_measure cbDictC2 = some (mkEval 0 16 0 (some impB)) from rfl) rfl
      (show dlookup "a" cbDictC2 = some (mkEval 10 12 0 (some impA)) from rfl) rfl
      (show dlookup "b" cbDictC2 = some (mkEval 20 11 0 (some impBm)) from rfl) rfl
      (show dlookup "c" cbDictC2 = some (mkEval 5 14 0 (some impCm)) from rfl) rfl
      (by decide) (by decide) rfl rfl rfl hAB hABC
  exact ⟨_, d2, d3, m2, m3, i2, i3, hs1, hs2, hs3, hl2, hl3, hi2, hi3, hat, hrk, hco⟩

end Climada
